import Mathlib

set_option maxHeartbeats 1000000
set_option linter.unusedVariables false

/-
Shallow embedding of the per-tile symbol layout pass
(src/symbol/symbol_layout.js) and of the collision debug renderer
(the unnamed render module, drawCollisionDebug / createQuadTriangles),
together with proofs of the specification claims.

Modelling conventions:
* JS numbers are rationals.  The real-valued distance comparison
  `anchor.dist(other) < r` is embedded through squared distances:
  over the reals, `Real.sqrt d < r` holds iff `0 < r` and `d < r * r`.
* Style-engine size evaluations return `Option ℚ`; `none` models the JS
  value `undefined`.  A comparison against `none` is `false`, matching
  the JS semantics of comparisons against `undefined`/NaN.
* `text-max-angle` is handed to the (abstract) anchor generator in units
  of pi radians, i.e. `deg / 180` without the irrational factor
  `Math.PI`; the consumer is an abstract external function, so this is a
  pure reparametrisation.
* External collaborators (text shaper, anchor generator, quad builders,
  the collision-feature box builder, murmur3, the bucket array sinks)
  are abstract functions bundled in `Externs`; layout is proved for
  every instantiation of them.
* All mutation of the bucket during layout is explicit state passing
  over `LS`.  Besides the bucket fields the JS code mutates, `LS`
  carries instrumentation traces (anchors handed to `addSymbolAtAnchor`,
  CollisionFeature constructor calls, `addSymbols` calls, shaping
  attempts, warning emissions) that record exactly the calls the JS code
  performs, so that claims about those calls can be stated.
-/

/-- A tile-local point (entries of `feature.geometry`). -/
structure Pt where
  x : ℚ
  y : ℚ
deriving Repr, DecidableEq

/-- `Anchor` (symbol/anchor.js): position, rotation angle and the optional
segment index used by line-following logic. -/
structure AnchorQ where
  x : ℚ
  y : ℚ
  angle : ℚ
  segment : Option ℕ
deriving Repr, DecidableEq

/-- `anchor.dist(other) < r`, embedded via squared distances:
over the reals `sqrt d < r` iff `0 < r ∧ d < r * r`. -/
def distLt (a b : AnchorQ) (r : ℚ) : Bool :=
  decide (0 < r ∧ (a.x - b.x) * (a.x - b.x) + (a.y - b.y) * (a.y - b.y) < r * r)

/-- Tile extent constant (data/extent.js, outside this excerpt): 8192.
No claim depends on the numeric value, only on the half-open bound. -/
def EXTENT : ℚ := 8192

/-- `SIZE_PACK_FACTOR` — Modelled from the spec: the constant is imported
from symbol/symbol_size.js, which is not part of this excerpt.  The spec
fixes the packing bound at 65535 (16 bits) and states that a size of 256
must overflow it while 255.9 must not, which pins the scale factor to 256. -/
def SIZE_PACK_FACTOR : ℚ := 256

/-- `MAX_PACKED_SIZE` (symbol_layout.js line 273). -/
def MAX_PACKED_SIZE : ℚ := 65535

/-- The three geometry types dispatched on by `addFeature`. -/
inductive GeomType
  | point
  | lineString
  | polygon
deriving Repr, DecidableEq

/-- `feature.text`: either a plain string or a `Formatted` value; the code
only uses the formatted value through `toString()`, so the model carries
the (externally computed) plain form directly. -/
inductive TextValue
  | plain (s : String)
  | formatted (plainForm : String)
deriving Repr, DecidableEq

/-- The `unformattedText` of the per-feature loop:
`text instanceof Formatted ? text.toString() : text`. -/
def unformattedText : TextValue → String
  | TextValue.plain s => s
  | TextValue.formatted p => p

def unformattedOf (t : Option TextValue) : String :=
  match t with
  | some v => unformattedText v
  | none => ""

/-- A `SymbolFeature`. -/
structure FeatureQ where
  text : Option TextValue
  icon : Option String
  index : ℕ
  sourceLayerIndex : ℕ
  type : GeomType
  geometry : List (List Pt)
deriving Repr, DecidableEq

/-- Resolved `symbol-placement` layout value. -/
inductive PlacementQ
  | point
  | line
  | lineCenter
deriving Repr, DecidableEq

/-- Resolved `*-rotation-alignment` layout value (`auto` is resolved by the
external style engine before this pass sees it). -/
inductive AlignmentQ
  | map
  | viewport
deriving Repr, DecidableEq

/-- `WritingMode` of shaping.js (external enum). -/
inductive WritingModeE
  | horizontal
  | vertical
  | horizontalOnly
deriving Repr, DecidableEq

/-- The result of the external text shaper that this pass inspects:
only the `.text` field is read (compareText key and murmur3 key). -/
structure ShapingQ where
  text : String
deriving Repr, DecidableEq

/-- Opaque handle for the external `shapeIcon` result. -/
structure PositionedIconQ where
  id : ℕ
deriving Repr, DecidableEq

/-- The `shapedTextOrientations` record of the per-feature loop. -/
structure ShapedTextOrientations where
  horizontal : Option ShapingQ
  vertical : Option ShapingQ
deriving Repr, DecidableEq

/-- `shapedTextOrientations.vertical || shapedTextOrientations.horizontal`. -/
def orElseShaping (a b : Option ShapingQ) : Option ShapingQ :=
  match a with
  | some v => some v
  | none => b

/-- Entry of the style `imageMap`. -/
structure ImageQ where
  sdf : Bool
  pixelRatio : ℚ
deriving Repr, DecidableEq

/-- `functionType` of `bucket.textSizeData` / `bucket.iconSizeData`. -/
inductive SizeFunctionType
  | constantT
  | sourceT
  | cameraT
  | compositeT
deriving Repr, DecidableEq

structure SizeDataQ where
  functionType : SizeFunctionType
  zoomRange : ℚ × ℚ
deriving Repr, DecidableEq

/-- The bucket-level layout properties read by this pass.  Properties read
through `.evaluate(feature, {})` are feature-indexed abstract evaluators
(the style engine is an external collaborator); size evaluators may
return `none` (JS `undefined`). -/
structure LayoutProps where
  symbolPlacement : PlacementQ
  textRotationAlignment : AlignmentQ
  iconRotationAlignment : AlignmentQ
  textKeepUpright : Bool
  textLineHeight : ℚ
  symbolSpacing : ℚ
  textPadding : ℚ
  iconPadding : ℚ
  textMaxAngle : ℚ
  iconRotateConstant : ℚ
  textFont : FeatureQ → List String
  textSize : FeatureQ → Option ℚ
  iconSize : FeatureQ → Option ℚ
  textOffsetEv : FeatureQ → ℚ × ℚ
  iconOffsetEv : FeatureQ → ℚ × ℚ
  textLetterSpacing : FeatureQ → ℚ
  textAnchorEv : FeatureQ → ℕ
  textJustifyEv : FeatureQ → ℕ
  textMaxWidth : FeatureQ → ℚ
  textRotate : FeatureQ → ℚ
  iconRotate : FeatureQ → ℚ
  iconAnchorEv : FeatureQ → ℕ

/-- The input (immutable) part of the `SymbolBucket`. -/
structure BucketInput where
  features : List FeatureQ
  zoom : ℚ
  overscaling : ℚ
  bucketIndex : ℕ
  pixelRatio : ℚ
  layerId : String
  layout : LayoutProps
  textSizeData : SizeDataQ
  iconSizeData : SizeDataQ
  unevalTextSize : ℚ → FeatureQ → Option ℚ
  unevalIconSize : ℚ → FeatureQ → Option ℚ
  maxGlyphs : ℕ
  imageMap : String → Option ImageQ
  imagePositions : String → ℕ

/-- The `Sizes` bundle computed once per tile-layout pass. -/
structure SizesQ where
  layoutTextSize : FeatureQ → Option ℚ
  layoutIconSize : FeatureQ → Option ℚ
  textMaxSize : FeatureQ → Option ℚ
  compositeTextSizes : (FeatureQ → Option ℚ) × (FeatureQ → Option ℚ)
  compositeIconSizes : (FeatureQ → Option ℚ) × (FeatureQ → Option ℚ)

/-- Which bucket array an `addSymbols` call targets. -/
inductive TargetArray
  | text
  | icon
deriving Repr, DecidableEq

/-- Record of one `bucket.addSymbols(...)` call (the bucket sink is an
external collaborator; the call with its arguments is what this pass
determines).  `writingMode = none` models the literal `false` passed for
icons. -/
structure AddSymbolsCall where
  target : TargetArray
  quadCount : ℕ
  sizeData : Option (List (Option ℚ))
  offset : ℚ × ℚ
  alongLine : Bool
  writingMode : Option WritingModeE
  anchor : AnchorQ
  lineStartIndex : ℕ
  lineLength : ℕ
deriving Repr, DecidableEq

/-- The shaped argument handed to the CollisionFeature constructor. -/
inductive ShapedRef
  | text (sh : ShapingQ)
  | icon (ic : PositionedIconQ)
deriving Repr, DecidableEq

/-- Record of one `new CollisionFeature(...)` call. -/
structure CollisionCall where
  line : List Pt
  anchor : AnchorQ
  featureIndex : ℕ
  sourceLayerIndex : ℕ
  bucketIndex : ℕ
  shaped : ShapedRef
  boxScale : Option ℚ
  padding : ℚ
  alignLine : Bool
  overscaling : ℚ
  rotate : ℚ
deriving Repr, DecidableEq

/-- The `[boxStartIndex, boxEndIndex)` range a CollisionFeature records. -/
structure CollisionFeatureQ where
  boxStartIndex : ℕ
  boxEndIndex : ℕ
deriving Repr, DecidableEq

/-- Warnings emitted through the `warnOnce` side channel, structured. -/
inductive WarningQ
  | textSizeOverflow (layerId : String)
  | iconSizeOverflow (layerId : String)
  | sdfMixed
  | tooManyGlyphs
deriving Repr, DecidableEq

/-- Which writing modes the per-feature loop attempted to shape. -/
structure ShapingAttempt where
  featureIndex : ℕ
  horizontalAttempted : Bool
  verticalAttempted : Bool
deriving Repr, DecidableEq

/-- The symbol instance descriptor returned by `addSymbol`. -/
structure SymbolInstanceQ where
  key : ℕ
  textBoxStartIndex : ℕ
  textBoxEndIndex : ℕ
  iconBoxStartIndex : ℕ
  iconBoxEndIndex : ℕ
  anchor : AnchorQ
  featureIndex : ℕ
  numGlyphVertices : ℕ
  numVerticalGlyphVertices : ℕ
  numIconVertices : ℕ
  placedTextSymbolIndices : List ℕ
  crossTileID : ℕ
deriving Repr, DecidableEq

/-- The external collaborators, as abstract (pure) functions.  Arities
mirror the information flowing through the real call sites; ambient
read-only inputs (glyph map, glyph position map) are closed over. -/
structure Externs where
  shapeText : TextValue → String → ℚ → ℚ → ℕ → ℕ → ℚ → (ℚ × ℚ) → WritingModeE → Option ShapingQ
  allowsVerticalWritingMode : String → Bool
  allowsLetterSpacing : String → Bool
  shapeIcon : ℕ → (ℚ × ℚ) → ℕ → PositionedIconQ
  clipLine : List (List Pt) → ℚ → ℚ → ℚ → ℚ → List (List Pt)
  getAnchors : List Pt → ℚ → ℚ → Option ShapingQ → Option PositionedIconQ → ℚ → Option ℚ → ℚ → ℚ → List AnchorQ
  getCenterAnchor : List Pt → ℚ → Option ShapingQ → Option PositionedIconQ → ℚ → Option ℚ → Option AnchorQ
  classifyRings : List (List Pt) → ℕ → List (List (List Pt))
  findPoleOfInaccessibility : List (List Pt) → ℚ → Pt
  murmur3 : String → ℕ
  glyphQuadCount : AnchorQ → ShapingQ → Bool → FeatureQ → ℕ
  iconQuadCount : AnchorQ → PositionedIconQ → Bool → Option ShapingQ → FeatureQ → ℕ
  collisionBoxCount : CollisionCall → ℕ
  lineVertexInfo : AnchorQ → List Pt → ℕ → ℕ × ℕ × ℕ
  glyphOffsetDelta : TargetArray → ℕ → ℕ

/-- The mutable layout state: the bucket fields `performSymbolLayout`
mutates, plus instrumentation traces mirroring the external calls. -/
structure LS where
  symbolInstances : List SymbolInstanceQ
  collisionBoxLen : ℕ
  lineVertexLen : ℕ
  placedTextLen : ℕ
  placedIconLen : ℕ
  glyphOffsetLen : ℕ
  compareText : String → Option (List AnchorQ)
  tilePixelRatio : ℚ
  iconsNeedLinear : Bool
  sdfIcons : Option Bool
  warnings : List WarningQ
  addSymbolsCalls : List AddSymbolsCall
  collisionCalls : List CollisionCall
  iconQuadAlongLine : List Bool
  textMaxSizeTrace : List (Option ℚ)
  instanceTraces : List (Option String × AnchorQ)
  anchorAttempts : List AnchorQ
  shapingAttempts : List ShapingAttempt

/-- Append one `warnOnce` emission to the diagnostic side channel. -/
def pushWarning (s : LS) (w : WarningQ) : LS :=
  { s with warnings := s.warnings ++ [w] }

/-- JS `a > b` where `a` may be `undefined` (comparison with `undefined`
or NaN is false). -/
def optGt (a : Option ℚ) (b : ℚ) : Bool :=
  match a with
  | some x => decide (b < x)
  | none => false

/-- Effect of `bucket.addSymbols(target, ...)`: the sink appends one
placed symbol to the target placed-symbol array and grows the shared
glyph-offset array by an external amount; the call is recorded. -/
def recordAddSymbols (ex : Externs) (s : LS) (c : AddSymbolsCall) : LS :=
  { s with
    addSymbolsCalls := s.addSymbolsCalls ++ [c],
    placedTextLen := if c.target = TargetArray.text then s.placedTextLen + 1 else s.placedTextLen,
    placedIconLen := if c.target = TargetArray.icon then s.placedIconLen + 1 else s.placedIconLen,
    glyphOffsetLen := s.glyphOffsetLen + ex.glyphOffsetDelta c.target c.quadCount }

/-- Modelled from the spec: `new CollisionFeature(...)`
(symbol/collision_feature.js is not part of this excerpt) appends one or
more boxes to the shared collision-box store and records the resulting
`[startIndex, endIndex)` range; the number of boxes appended is an
external function of the constructor arguments. -/
def mkCollisionFeature (ex : Externs) (call : CollisionCall) (s : LS) : CollisionFeatureQ × LS :=
  let n := ex.collisionBoxCount call
  (⟨s.collisionBoxLen, s.collisionBoxLen + n⟩,
   { s with
     collisionBoxLen := s.collisionBoxLen + n,
     collisionCalls := s.collisionCalls ++ [call] })

/-- `anchorIsTooClose` (symbol_layout.js lines 445-461): returns whether
the anchor is within `repeatDistance` of a previously recorded same-text
anchor, and records the anchor when it is not. -/
def anchorIsTooClose (s : LS) (text : String) (repeatDistance : ℚ) (anchor : AnchorQ) :
    Bool × LS :=
  match s.compareText text with
  | none =>
      (false, { s with compareText := fun t => if t = text then some [anchor] else s.compareText t })
  | some otherAnchors =>
      if otherAnchors.any (fun other => distLt anchor other repeatDistance) then
        (true, s)
      else
        (false, { s with compareText := fun t =>
          if t = text then some (otherAnchors ++ [anchor]) else s.compareText t })

/-- `addTextVertices` (symbol_layout.js lines 275-327).  Returns the
glyph-vertex count contribution, the grown `placedTextSymbolIndices`
list, and the new state. -/
def addTextVertices (ex : Externs) (bucket : BucketInput) (anchor : AnchorQ)
    (shapedText : ShapingQ) (textAlongLine : Bool) (feature : FeatureQ)
    (textOffset : ℚ × ℚ) (lineArray : ℕ × ℕ) (writingMode : WritingModeE)
    (placedTextSymbolIndices : List ℕ) (sizes : SizesQ) (s : LS) :
    ℕ × List ℕ × LS :=
  let glyphQuadCount := ex.glyphQuadCount anchor shapedText textAlongLine feature
  let packed := fun (v : Option ℚ) => Option.map (fun q => SIZE_PACK_FACTOR * q) v
  let sized : Option (List (Option ℚ)) × LS :=
    match bucket.textSizeData.functionType with
    | SizeFunctionType.sourceT =>
        let d := packed (bucket.layout.textSize feature)
        (some [d],
         if optGt d MAX_PACKED_SIZE then pushWarning s (WarningQ.textSizeOverflow bucket.layerId)
         else s)
    | SizeFunctionType.compositeT =>
        let d0 := packed (sizes.compositeTextSizes.1 feature)
        let d1 := packed (sizes.compositeTextSizes.2 feature)
        (some [d0, d1],
         if optGt d0 MAX_PACKED_SIZE || optGt d1 MAX_PACKED_SIZE then
           pushWarning s (WarningQ.textSizeOverflow bucket.layerId)
         else s)
    | _ => (none, s)
  let s := recordAddSymbols ex sized.2
    { target := TargetArray.text, quadCount := glyphQuadCount, sizeData := sized.1,
      offset := textOffset, alongLine := textAlongLine, writingMode := some writingMode,
      anchor := anchor, lineStartIndex := lineArray.1, lineLength := lineArray.2 }
  (glyphQuadCount * 4, placedTextSymbolIndices ++ [s.placedTextLen - 1], s)

/-- `addSymbol` (symbol_layout.js lines 335-443): one label & icon
placement.  Returns the symbol instance and the new state. -/
def addSymbol (ex : Externs) (bucket : BucketInput) (anchor : AnchorQ) (line : List Pt)
    (shapedTextOrientations : ShapedTextOrientations) (shapedIcon : Option PositionedIconQ)
    (featureIndex : ℕ) (sourceLayerIndex : ℕ) (bucketIndex : ℕ)
    (textBoxScale : Option ℚ) (textPadding : ℚ) (textAlongLine : Bool) (textOffset : ℚ × ℚ)
    (iconBoxScale : Option ℚ) (iconPadding : ℚ) (iconAlongLine : Bool) (iconOffset : ℚ × ℚ)
    (feature : FeatureQ) (sizes : SizesQ) (s : LS) : SymbolInstanceQ × LS :=
  let lv := ex.lineVertexInfo anchor line s.lineVertexLen
  let lineArray : ℕ × ℕ := (lv.1, lv.2.1)
  let s := { s with lineVertexLen := lv.2.2 }
  let key := ex.murmur3 (match shapedTextOrientations.horizontal with
    | some sh => sh.text
    | none => "")
  let tRes : Option CollisionFeatureQ × ℕ × List ℕ × ℕ × LS :=
    match shapedTextOrientations.horizontal with
    | some sh =>
        let textRotate := bucket.layout.textRotate feature
        let tcall : CollisionCall :=
          { line := line, anchor := anchor, featureIndex := featureIndex,
            sourceLayerIndex := sourceLayerIndex, bucketIndex := bucketIndex,
            shaped := ShapedRef.text sh, boxScale := textBoxScale, padding := textPadding,
            alignLine := textAlongLine, overscaling := bucket.overscaling, rotate := textRotate }
        let cf := mkCollisionFeature ex tcall s
        let wm := match shapedTextOrientations.vertical with
          | some _ => WritingModeE.horizontal
          | none => WritingModeE.horizontalOnly
        let r1 := addTextVertices ex bucket anchor sh textAlongLine feature textOffset
          lineArray wm [] sizes cf.2
        match shapedTextOrientations.vertical with
        | some shv =>
            let r2 := addTextVertices ex bucket anchor shv textAlongLine feature textOffset
              lineArray WritingModeE.vertical r1.2.1 sizes r1.2.2
            (some cf.1, r1.1, r2.2.1, r2.1, r2.2.2)
        | none => (some cf.1, r1.1, r1.2.1, 0, r1.2.2)
    | none => (none, 0, [], 0, s)
  let textCollisionFeature := tRes.1
  let numGlyphVertices := tRes.2.1
  let placedTextSymbolIndices := tRes.2.2.1
  let numVerticalGlyphVertices := tRes.2.2.2.1
  let s := tRes.2.2.2.2
  let textBoxStartIndex := match textCollisionFeature with
    | some cf => cf.boxStartIndex
    | none => s.collisionBoxLen
  let textBoxEndIndex := match textCollisionFeature with
    | some cf => cf.boxEndIndex
    | none => s.collisionBoxLen
  let iRes : Option CollisionFeatureQ × ℕ × LS :=
    match shapedIcon with
    | some icon =>
        let iconQuads := ex.iconQuadCount anchor icon iconAlongLine
          shapedTextOrientations.horizontal feature
        let s := { s with iconQuadAlongLine := s.iconQuadAlongLine ++ [iconAlongLine] }
        let iconRotate := bucket.layout.iconRotate feature
        let icall : CollisionCall :=
          { line := line, anchor := anchor, featureIndex := featureIndex,
            sourceLayerIndex := sourceLayerIndex, bucketIndex := bucketIndex,
            shaped := ShapedRef.icon icon, boxScale := iconBoxScale, padding := iconPadding,
            alignLine := false, overscaling := bucket.overscaling, rotate := iconRotate }
        let cf := mkCollisionFeature ex icall s
        let s := cf.2
        let packed := fun (v : Option ℚ) => Option.map (fun q => SIZE_PACK_FACTOR * q) v
        let sized : Option (List (Option ℚ)) × LS :=
          match bucket.iconSizeData.functionType with
          | SizeFunctionType.sourceT =>
              let d := packed (bucket.layout.iconSize feature)
              (some [d],
               if optGt d MAX_PACKED_SIZE then
                 pushWarning s (WarningQ.iconSizeOverflow bucket.layerId)
               else s)
          | SizeFunctionType.compositeT =>
              let d0 := packed (sizes.compositeIconSizes.1 feature)
              let d1 := packed (sizes.compositeIconSizes.2 feature)
              (some [d0, d1],
               if optGt d0 MAX_PACKED_SIZE || optGt d1 MAX_PACKED_SIZE then
                 pushWarning s (WarningQ.iconSizeOverflow bucket.layerId)
               else s)
          | _ => (none, s)
        let s := recordAddSymbols ex sized.2
          { target := TargetArray.icon, quadCount := iconQuads, sizeData := sized.1,
            offset := iconOffset, alongLine := iconAlongLine, writingMode := none,
            anchor := anchor, lineStartIndex := lineArray.1, lineLength := lineArray.2 }
        (some cf.1, iconQuads * 4, s)
    | none => (none, 0, s)
  let iconCollisionFeature := iRes.1
  let numIconVertices := iRes.2.1
  let s := iRes.2.2
  let iconBoxStartIndex := match iconCollisionFeature with
    | some cf => cf.boxStartIndex
    | none => s.collisionBoxLen
  let iconBoxEndIndex := match iconCollisionFeature with
    | some cf => cf.boxEndIndex
    | none => s.collisionBoxLen
  let s := if bucket.maxGlyphs ≤ s.glyphOffsetLen then pushWarning s WarningQ.tooManyGlyphs else s
  (⟨key, textBoxStartIndex, textBoxEndIndex, iconBoxStartIndex, iconBoxEndIndex, anchor,
    featureIndex, numGlyphVertices, numVerticalGlyphVertices, numIconVertices,
    placedTextSymbolIndices, 0⟩, s)

/-- The per-feature context captured by the `addSymbolAtAnchor` closure. -/
structure FeatureCtx where
  feature : FeatureQ
  shapedTextOrientations : ShapedTextOrientations
  shapedIcon : Option PositionedIconQ
  textBoxScale : Option ℚ
  textPadding : ℚ
  textAlongLine : Bool
  textOffset : ℚ × ℚ
  iconBoxScale : Option ℚ
  iconPadding : ℚ
  iconAlongLine : Bool
  iconOffset : ℚ × ℚ
  sizes : SizesQ

/-- `addSymbolAtAnchor` (symbol_layout.js lines 201-214): filter anchors
outside `[0, EXTENT)` on either axis, otherwise push one symbol
instance.  The pushed instance is additionally mirrored into the
`instanceTraces` instrumentation together with the horizontal text. -/
def addSymbolAtAnchor (ex : Externs) (bucket : BucketInput) (ctx : FeatureCtx)
    (line : List Pt) (anchor : AnchorQ) (s : LS) : LS :=
  if anchor.x < 0 ∨ EXTENT ≤ anchor.x ∨ anchor.y < 0 ∨ EXTENT ≤ anchor.y then s
  else
    let r := addSymbol ex bucket anchor line ctx.shapedTextOrientations ctx.shapedIcon
      ctx.feature.index ctx.feature.sourceLayerIndex bucket.bucketIndex
      ctx.textBoxScale ctx.textPadding ctx.textAlongLine ctx.textOffset
      ctx.iconBoxScale ctx.iconPadding ctx.iconAlongLine ctx.iconOffset
      ctx.feature ctx.sizes s
    { r.2 with
      symbolInstances := r.2.symbolInstances ++ [r.1],
      instanceTraces := r.2.instanceTraces ++
        [(Option.map ShapingQ.text ctx.shapedTextOrientations.horizontal, anchor)] }

/-- Instrumented call of `addSymbolAtAnchor`: the candidate anchor is
recorded in `anchorAttempts` before the bounds check runs. -/
def attemptAnchor (ex : Externs) (bucket : BucketInput) (ctx : FeatureCtx)
    (line : List Pt) (anchor : AnchorQ) (s : LS) : LS :=
  addSymbolAtAnchor ex bucket ctx line anchor
    { s with anchorAttempts := s.anchorAttempts ++ [anchor] }

/-- The body of the per-anchor loop of the `symbol-placement: line`
branch of `addFeature` (lines 229-234). -/
def lineAnchorStep (ex : Externs) (bucket : BucketInput) (ctx : FeatureCtx)
    (textRepeatDistance : ℚ) (line : List Pt) (s : LS) (anchor : AnchorQ) : LS :=
  match ctx.shapedTextOrientations.horizontal with
  | some shapedText =>
      let r := anchorIsTooClose s shapedText.text textRepeatDistance anchor
      if r.1 then r.2 else attemptAnchor ex bucket ctx line anchor r.2
  | none => attemptAnchor ex bucket ctx line anchor s

/-- The per-feature `textMaxSize` with its fallback (lines 178-181):
the zoom-18 evaluation, or `layoutTextSize` when it is `undefined`. -/
def resolveTextMaxSize (sizes : SizesQ) (feature : FeatureQ) : Option ℚ :=
  match sizes.textMaxSize feature with
  | none => sizes.layoutTextSize feature
  | some v => some v

/-- `addFeature` (symbol_layout.js lines 165-271). -/
def addFeature (ex : Externs) (bucket : BucketInput) (feature : FeatureQ)
    (shapedTextOrientations : ShapedTextOrientations) (shapedIcon : Option PositionedIconQ)
    (sizes : SizesQ) (s : LS) : LS :=
  let layoutTextSize := sizes.layoutTextSize feature
  let layoutIconSize := sizes.layoutIconSize feature
  let textMaxSize := resolveTextMaxSize sizes feature
  let s := { s with textMaxSizeTrace := s.textMaxSizeTrace ++ [textMaxSize] }
  let layout := bucket.layout
  let textOffset := layout.textOffsetEv feature
  let iconOffset := layout.iconOffsetEv feature
  let glyphSize : ℚ := 24
  let fontScale := Option.map (fun v => v / glyphSize) layoutTextSize
  let textBoxScale := Option.map (fun v => s.tilePixelRatio * v) fontScale
  let textMaxBoxScale := Option.map (fun v => s.tilePixelRatio * v / glyphSize) textMaxSize
  let iconBoxScale := Option.map (fun v => s.tilePixelRatio * v) layoutIconSize
  let symbolMinDistance := s.tilePixelRatio * layout.symbolSpacing
  let textPadding := layout.textPadding * s.tilePixelRatio
  let iconPadding := layout.iconPadding * s.tilePixelRatio
  let textMaxAngleOverPi := layout.textMaxAngle / 180
  let textAlongLine := decide (layout.textRotationAlignment = AlignmentQ.map)
    && decide (layout.symbolPlacement ≠ PlacementQ.point)
  let iconAlongLine := decide (layout.iconRotationAlignment = AlignmentQ.map)
    && decide (layout.symbolPlacement ≠ PlacementQ.point)
  let textRepeatDistance := symbolMinDistance / 2
  let ctx : FeatureCtx :=
    { feature := feature, shapedTextOrientations := shapedTextOrientations,
      shapedIcon := shapedIcon, textBoxScale := textBoxScale, textPadding := textPadding,
      textAlongLine := textAlongLine, textOffset := textOffset, iconBoxScale := iconBoxScale,
      iconPadding := iconPadding, iconAlongLine := iconAlongLine, iconOffset := iconOffset,
      sizes := sizes }
  match layout.symbolPlacement with
  | PlacementQ.line =>
      (ex.clipLine feature.geometry 0 0 EXTENT EXTENT).foldl (fun s line =>
        let anchors := ex.getAnchors line symbolMinDistance textMaxAngleOverPi
          (orElseShaping shapedTextOrientations.vertical shapedTextOrientations.horizontal)
          shapedIcon glyphSize textMaxBoxScale bucket.overscaling EXTENT
        anchors.foldl (lineAnchorStep ex bucket ctx textRepeatDistance line) s) s
  | PlacementQ.lineCenter =>
      feature.geometry.foldl (fun s line =>
        if 1 < line.length then
          match ex.getCenterAnchor line textMaxAngleOverPi
            (orElseShaping shapedTextOrientations.vertical shapedTextOrientations.horizontal)
            shapedIcon glyphSize textMaxBoxScale with
          | some anchor => attemptAnchor ex bucket ctx line anchor s
          | none => s
        else s) s
  | PlacementQ.point =>
      match feature.type with
      | GeomType.polygon =>
          (ex.classifyRings feature.geometry 0).foldl (fun s polygon =>
            let poi := ex.findPoleOfInaccessibility polygon 16
            attemptAnchor ex bucket ctx (polygon.headD []) ⟨poi.x, poi.y, 0, none⟩ s) s
      | GeomType.lineString =>
          feature.geometry.foldl (fun s line =>
            let p0 := line.headD ⟨0, 0⟩
            attemptAnchor ex bucket ctx line ⟨p0.x, p0.y, 0, none⟩ s) s
      | GeomType.point =>
          feature.geometry.foldl (fun s points =>
            points.foldl (fun s point =>
              attemptAnchor ex bucket ctx [point] ⟨point.x, point.y, 0, none⟩ s) s) s

/-- The text-shaping dispatch of the per-feature loop
(performSymbolLayout lines 107-124), with the attempted writing modes
recorded. -/
def shapeFeature (ex : Externs) (bucket : BucketInput) (feature : FeatureQ) :
    ShapedTextOrientations × ShapingAttempt :=
  let layout := bucket.layout
  let fontstack := String.intercalate "," (layout.textFont feature)
  let oneEm : ℚ := 24
  let lineHeight := layout.textLineHeight * oneEm
  let textAlongLine := decide (layout.textRotationAlignment = AlignmentQ.map)
    && decide (layout.symbolPlacement ≠ PlacementQ.point)
  let keepUpright := layout.textKeepUpright
  match feature.text with
  | none => (⟨none, none⟩, ⟨feature.index, false, false⟩)
  | some t =>
      let unformatted := unformattedText t
      let textOffset := ((layout.textOffsetEv feature).1 * oneEm,
                         (layout.textOffsetEv feature).2 * oneEm)
      let spacing := layout.textLetterSpacing feature * oneEm
      let spacingIfAllowed := if ex.allowsLetterSpacing unformatted then spacing else 0
      let textAnchor := layout.textAnchorEv feature
      let textJustify := layout.textJustifyEv feature
      let maxWidth := if layout.symbolPlacement = PlacementQ.point then
          layout.textMaxWidth feature * oneEm
        else 0
      let horizontal := ex.shapeText t fontstack maxWidth lineHeight textAnchor textJustify
        spacingIfAllowed textOffset WritingModeE.horizontal
      let tryVertical := ex.allowsVerticalWritingMode unformatted && textAlongLine && keepUpright
      let vertical := if tryVertical then
          ex.shapeText t fontstack maxWidth lineHeight textAnchor textJustify
            spacingIfAllowed textOffset WritingModeE.vertical
        else none
      (⟨horizontal, vertical⟩, ⟨feature.index, true, tryVertical⟩)

/-- The icon lookup and shaping block of the per-feature loop
(performSymbolLayout lines 126-145): shape the icon when its image is
present in the atlas, track the bucket's SDF-consistency flag (warning
once per conflicting feature) and its linear-filtering flag. -/
def processFeatureIcon (ex : Externs) (bucket : BucketInput) (feature : FeatureQ)
    (s : LS) : Option PositionedIconQ × LS :=
  match feature.icon with
  | none => (none, s)
  | some iconName =>
      match bucket.imageMap iconName with
      | none => (none, s)
      | some image =>
          let shapedIcon := ex.shapeIcon (bucket.imagePositions iconName)
            (bucket.layout.iconOffsetEv feature) (bucket.layout.iconAnchorEv feature)
          let s := match s.sdfIcons with
            | none => { s with sdfIcons := some image.sdf }
            | some b => if b ≠ image.sdf then pushWarning s WarningQ.sdfMixed else s
          let s := if image.pixelRatio ≠ bucket.pixelRatio then
              { s with iconsNeedLinear := true }
            else if bucket.layout.iconRotateConstant ≠ 0 then
              { s with iconsNeedLinear := true }
            else s
          (some shapedIcon, s)

/-- The body of the per-feature loop of `performSymbolLayout`
(lines 103-150): shape text, look up and shape the icon, then call
`addFeature` when a horizontal shaping or an icon exists. -/
def processFeature (ex : Externs) (bucket : BucketInput) (sizes : SizesQ)
    (s : LS) (feature : FeatureQ) : LS :=
  let shaped := shapeFeature ex bucket feature
  let shapedTextOrientations := shaped.1
  let s := { s with shapingAttempts := s.shapingAttempts ++ [shaped.2] }
  let iconRes := processFeatureIcon ex bucket feature s
  let shapedIcon := iconRes.1
  let s := iconRes.2
  if shapedTextOrientations.horizontal.isSome || shapedIcon.isSome then
    addFeature ex bucket feature shapedTextOrientations shapedIcon sizes s
  else s

/-- The `Sizes` bundle construction (performSymbolLayout lines 75-95). -/
def mkSizes (bucket : BucketInput) : SizesQ :=
  { compositeTextSizes :=
      if bucket.textSizeData.functionType = SizeFunctionType.compositeT then
        (bucket.unevalTextSize bucket.textSizeData.zoomRange.1,
         bucket.unevalTextSize bucket.textSizeData.zoomRange.2)
      else (fun _ => none, fun _ => none),
    compositeIconSizes :=
      if bucket.iconSizeData.functionType = SizeFunctionType.compositeT then
        (bucket.unevalIconSize bucket.iconSizeData.zoomRange.1,
         bucket.unevalIconSize bucket.iconSizeData.zoomRange.2)
      else (fun _ => none, fun _ => none),
    layoutTextSize := bucket.unevalTextSize (bucket.zoom + 1),
    layoutIconSize := bucket.unevalIconSize (bucket.zoom + 1),
    textMaxSize := bucket.unevalTextSize 18 }

/-- The state resets at the top of `performSymbolLayout` (lines 64-70).
`bucket.createArrays()` is modelled from the spec: symbol_bucket.js is
not part of this excerpt; it recreates the bucket's GPU-facing arrays
(placed-symbol, glyph-offset and line-vertex storage restart at zero),
while the shared `collisionBoxArray` is constructed outside it and
persists, as do the warning side channel and `bucket.sdfIcons`.  The
instrumentation traces record one pass and restart empty. -/
def initLayoutState (bucket : BucketInput) (s : LS) : LS :=
  { s with
    symbolInstances := [],
    lineVertexLen := 0, placedTextLen := 0, placedIconLen := 0, glyphOffsetLen := 0,
    tilePixelRatio := EXTENT / (512 * bucket.overscaling),
    compareText := fun _ => none,
    iconsNeedLinear := false,
    addSymbolsCalls := [], collisionCalls := [], iconQuadAlongLine := [],
    textMaxSizeTrace := [], instanceTraces := [], anchorAttempts := [],
    shapingAttempts := [] }

/-- `performSymbolLayout` (symbol_layout.js lines 58-155).  The trailing
`generateCollisionDebugBuffers` call behind `showCollisionBoxes` is an
external bucket method that builds debug buffers only; it has no effect
on the modelled layout state. -/
def performSymbolLayout (ex : Externs) (bucket : BucketInput)
    (showCollisionBoxes : Bool) (s0 : LS) : LS :=
  let s := initLayoutState bucket s0
  let sizes := mkSizes bucket
  bucket.features.foldl (processFeature ex bucket sizes) s

/- ===== Collision debug renderer (drawCollisionDebug / createQuadTriangles) ===== -/

/-- One collision circle: the four floats per circle of
`bucket.collisionCircleArray` (x, y, radius, collision flag). -/
structure CircleQ where
  cx : ℚ
  cy : ℚ
  radius : ℚ
  collision : ℚ
deriving Repr, DecidableEq

/-- The per-tile data `drawCollisionDebug` reads.  The transform matrices
and the projection are opaque to every property claimed and are omitted;
`textBoxBuffers` / `iconBoxBuffers` model the presence of
`bucket.textCollisionBox` / `bucket.iconCollisionBox`. -/
structure DebugTileQ where
  hasBucket : Bool
  circles : List CircleQ
  textBoxBuffers : Bool
  iconBoxBuffers : Bool
deriving Repr, DecidableEq

/-- A `TileBatch`: circle data plus the running `circleOffset`. -/
structure TileBatchQ where
  circles : List CircleQ
  circleOffset : ℕ
deriving Repr, DecidableEq

/-- One vertex of the collision-circle vertex buffer: the circle's four
values plus the corner index 0..3 (`vertexData.emplace(off, x, y, radius,
collision, corner)`). -/
structure VertexQ where
  vx : ℚ
  vy : ℚ
  vradius : ℚ
  vcollision : ℚ
  corner : ℕ
deriving Repr, DecidableEq

/-- GPU-facing events issued by `drawCollisionDebug`, in program order. -/
inductive DrawEventQ
  | boxDraw
  | createIndexBuffer (triCount : ℕ)
  | createVertexBuffer (data : List VertexQ)
  | circleDraw (primitiveOffset : ℕ) (vertexLength : ℕ) (primitiveLength : ℕ)
  | destroyVertexBuffer
  | destroyIndexBuffer
deriving Repr, DecidableEq

/-- The module-global `quadTriangles` cache, threaded explicitly.  The
array is modelled by its triangle list. -/
structure DebugState where
  quadTriangles : Option (List (ℕ × ℕ × ℕ))
deriving Repr, DecidableEq

/-- One iteration of the first loop of `drawCollisionDebug`
(lines 43-89): skip the tile when it has no bucket, collect a
`TileBatch` when the bucket has circle data (recording the running
circle offset), and issue the box line draw when the tile has the
matching box buffers. -/
def gatherStep (isText : Bool) (acc : List TileBatchQ × ℕ × List DrawEventQ)
    (tile : DebugTileQ) : List TileBatchQ × ℕ × List DrawEventQ :=
  if !tile.hasBucket then acc
  else
    let withBatch : List TileBatchQ × ℕ :=
      if 0 < tile.circles.length then
        (acc.1 ++ [⟨tile.circles, acc.2.1⟩], acc.2.1 + tile.circles.length)
      else (acc.1, acc.2.1)
    let buffers := if isText then tile.textBoxBuffers else tile.iconBoxBuffers
    let events := if buffers then acc.2.2 ++ [DrawEventQ.boxDraw] else acc.2.2
    (withBatch.1, withBatch.2, events)

/-- The first loop of `drawCollisionDebug` (lines 43-89). -/
def gatherTiles (isText : Bool) (tiles : List DebugTileQ) :
    List TileBatchQ × ℕ × List DrawEventQ :=
  tiles.foldl (gatherStep isText) ([], 0, [])

/-- Write the elements of `xs` at consecutive positions `n, n+1, ...` of
`l` (`List.set` ignores out-of-range writes, as JS typed arrays do). -/
def setSeq (l : List α) (n : ℕ) (xs : List α) : List α :=
  match xs with
  | [] => l
  | x :: rest => setSeq (l.set n x) (n + 1) rest

/-- The four vertices `vertexData.emplace` writes for one circle
(lines 113-117). -/
def circleVerts (c : CircleQ) : List VertexQ :=
  [⟨c.cx, c.cy, c.radius, c.collision, 0⟩,
   ⟨c.cx, c.cy, c.radius, c.collision, 1⟩,
   ⟨c.cx, c.cy, c.radius, c.collision, 2⟩,
   ⟨c.cx, c.cy, c.radius, c.collision, 3⟩]

/-- The vertex-data construction loop (lines 99-119): a vertex array of
`circleCount * 4` entries is allocated (`resize`), then each batch's
circles are emplaced at the running `vertexOffset`. -/
def buildVertexData (batches : List TileBatchQ) (circleCount : ℕ) : List VertexQ :=
  (batches.foldl (fun p b =>
      b.circles.foldl (fun p c => (setSeq p.1 p.2 (circleVerts c), p.2 + 4)) p)
    (List.replicate (circleCount * 4) ⟨0, 0, 0, 0, 0⟩, 0)).1

/-- Group a flat component list into index triangles (the
`QuadTriangleArray` holds three uint32 components per element). -/
def toTriples : List ℕ → List (ℕ × ℕ × ℕ)
  | a :: b :: c :: rest => (a, b, c) :: toTriples rest
  | _ => []

/-- `createQuadTriangles` (part_000 lines 151-171): allocate
`triCount = quadCount * 2` triangles and write two triangles per loop
iteration at component offset `i * 6`.  The loop runs to `triCount`, so
its second half writes past the allocated component range; those writes
are dropped (`List.set` out of range), exactly as JS typed-array stores
out of bounds are. -/
def createQuadTriangles (quadCount : ℕ) : List (ℕ × ℕ × ℕ) :=
  let triCount := quadCount * 2
  let comps := (List.range triCount).foldl (fun arr i =>
      setSeq arr (i * 6)
        [i * 4 + 0, i * 4 + 1, i * 4 + 2, i * 4 + 2, i * 4 + 3, i * 4 + 0])
    (List.replicate (triCount * 3) 0)
  toTriples comps

/-- `drawCollisionDebug` (part_000 lines 34-149): issue the box line
draws while gathering circle batches; when rendering the text pass with
at least one batch, build the frame's circle vertex data, reuse or grow
the shared `quadTriangles` index data, create the per-frame buffers,
issue one triangle draw per batch, and destroy the per-frame buffers. -/
def drawCollisionDebug (isText : Bool) (tiles : List DebugTileQ) (st : DebugState) :
    DebugState × List DrawEventQ :=
  let gathered := gatherTiles isText tiles
  let tileBatches := gathered.1
  let circleCount := gathered.2.1
  let events := gathered.2.2
  if !isText || tileBatches.isEmpty then (st, events)
  else
    let vertexData := buildVertexData tileBatches circleCount
    let qt := match st.quadTriangles with
      | none => createQuadTriangles circleCount
      | some q => if q.length < circleCount * 2 then createQuadTriangles circleCount else q
    let events := events ++ [DrawEventQ.createIndexBuffer qt.length,
                             DrawEventQ.createVertexBuffer vertexData]
    let events := events ++ tileBatches.map (fun b =>
      DrawEventQ.circleDraw (b.circleOffset * 2) (b.circles.length * 4) (b.circles.length * 2))
    let events := events ++ [DrawEventQ.destroyVertexBuffer, DrawEventQ.destroyIndexBuffer]
    (⟨some qt⟩, events)

/-- Total circle count over the tiles that have a bucket. -/
def totalCircleCount : List DebugTileQ → ℕ
  | [] => 0
  | t :: rest => (if t.hasBucket then t.circles.length else 0) + totalCircleCount rest

/-- Length of the cached `quadTriangles` array (0 when absent). -/
def qtLen (st : DebugState) : ℕ :=
  match st.quadTriangles with
  | some q => q.length
  | none => 0

/- ===== Concrete instances used by the witness theorems ===== -/

/-- A concrete instantiation of the external collaborators. -/
def exA : Externs :=
  { shapeText := fun _ _ _ _ _ _ _ _ _ => some ⟨"T"⟩,
    allowsVerticalWritingMode := fun _ => true,
    allowsLetterSpacing := fun _ => true,
    shapeIcon := fun _ _ _ => ⟨0⟩,
    clipLine := fun g _ _ _ _ => g,
    getAnchors := fun _ _ _ _ _ _ _ _ _ => [],
    getCenterAnchor := fun _ _ _ _ _ _ => none,
    classifyRings := fun g _ => [g],
    findPoleOfInaccessibility := fun _ _ => ⟨0, 0⟩,
    murmur3 := fun t => t.length,
    glyphQuadCount := fun _ _ _ _ => 1,
    iconQuadCount := fun _ _ _ _ _ => 1,
    collisionBoxCount := fun _ => 1,
    lineVertexInfo := fun _ line n => (n, line.length, n + line.length + 1),
    glyphOffsetDelta := fun _ k => k * 4 }

/-- Externals whose anchor generator yields two distant anchors. -/
def exC3 : Externs :=
  { exA with getAnchors := fun _ _ _ _ _ _ _ _ _ =>
      [⟨0, 0, 0, none⟩, ⟨5000, 0, 0, none⟩] }

/-- A concrete point feature with text. -/
def featA : FeatureQ :=
  { text := some (TextValue.plain "T"), icon := none, index := 0, sourceLayerIndex := 0,
    type := GeomType.point, geometry := [[⟨100, 200⟩]] }

/-- A concrete line feature with text. -/
def featC3 : FeatureQ :=
  { text := some (TextValue.plain "T"), icon := none, index := 0, sourceLayerIndex := 0,
    type := GeomType.lineString, geometry := [[⟨0, 0⟩, ⟨5000, 0⟩]] }

/-- Concrete layout properties (point placement). -/
def layoutA : LayoutProps :=
  { symbolPlacement := PlacementQ.point, textRotationAlignment := AlignmentQ.map,
    iconRotationAlignment := AlignmentQ.map, textKeepUpright := true, textLineHeight := 1,
    symbolSpacing := 250, textPadding := 2, iconPadding := 2, textMaxAngle := 45,
    iconRotateConstant := 0,
    textFont := fun _ => ["F"], textSize := fun _ => some 300, iconSize := fun _ => some 1,
    textOffsetEv := fun _ => (0, 0), iconOffsetEv := fun _ => (0, 0),
    textLetterSpacing := fun _ => 0, textAnchorEv := fun _ => 0, textJustifyEv := fun _ => 0,
    textMaxWidth := fun _ => 10, textRotate := fun _ => 0, iconRotate := fun _ => 0,
    iconAnchorEv := fun _ => 0 }

/-- Concrete bucket: one point feature, source-function text size. -/
def bucketA : BucketInput :=
  { features := [featA], zoom := 10, overscaling := 1, bucketIndex := 0, pixelRatio := 1,
    layerId := "layer", layout := layoutA,
    textSizeData := ⟨SizeFunctionType.sourceT, (0, 0)⟩,
    iconSizeData := ⟨SizeFunctionType.constantT, (0, 0)⟩,
    unevalTextSize := fun _ _ => some 16, unevalIconSize := fun _ _ => some 1,
    maxGlyphs := 65535, imageMap := fun _ => none, imagePositions := fun _ => 0 }

/-- Concrete bucket with line placement. -/
def bucketC3 : BucketInput :=
  { bucketA with
    features := [featC3],
    layout := { layoutA with symbolPlacement := PlacementQ.line } }

/-- Concrete bucket whose text-size evaluations are all `undefined`. -/
def bucketN : BucketInput :=
  { bucketA with unevalTextSize := fun _ _ => none }

/-- An empty initial layout state. -/
def ls0 : LS :=
  { symbolInstances := [], collisionBoxLen := 0, lineVertexLen := 0, placedTextLen := 0,
    placedIconLen := 0, glyphOffsetLen := 0, compareText := fun _ => none,
    tilePixelRatio := 1, iconsNeedLinear := false, sdfIcons := none, warnings := [],
    addSymbolsCalls := [], collisionCalls := [], iconQuadAlongLine := [],
    textMaxSizeTrace := [], instanceTraces := [], anchorAttempts := [],
    shapingAttempts := [] }

/-- A dirtied initial state differing from `ls0` only in reset or
diagnostic fields. -/
def ls1 : LS :=
  { ls0 with
    warnings := [WarningQ.sdfMixed], sdfIcons := some true,
    compareText := fun _ => some [], symbolInstances := [], iconsNeedLinear := true,
    placedTextLen := 7, lineVertexLen := 3 }

/-- A concrete per-feature context. -/
def ctxA : FeatureCtx :=
  { feature := featA, shapedTextOrientations := ⟨some ⟨"T"⟩, none⟩, shapedIcon := none,
    textBoxScale := some 1, textPadding := 2, textAlongLine := false, textOffset := (0, 0),
    iconBoxScale := some 1, iconPadding := 2, iconAlongLine := false, iconOffset := (0, 0),
    sizes := mkSizes bucketA }

/-- Concrete debug tiles: one bucket with one circle. -/
def tilesA : List DebugTileQ :=
  [{ hasBucket := true, circles := [⟨1, 2, 3, 0⟩], textBoxBuffers := true,
     iconBoxBuffers := false }]

/-- An empty debug-renderer cache state. -/
def dst0 : DebugState := ⟨none⟩

/-- Part 1 of the line-placement repeat-distance invariant: every
symbol-instance trace carrying a horizontal text is registered in
`compareText` under that text. -/
def TraceMem (s : LS) : Prop :=
  ∀ (i : ℕ) (t : String) (a : AnchorQ), s.instanceTraces[i]? = some (some t, a) →
    ∃ l, s.compareText t = some l ∧ a ∈ l

/-- Part 2 of the line-placement repeat-distance invariant: two distinct
symbol instances carrying the same horizontal text are never closer
than `r`. -/
def TraceFar (s : LS) (r : ℚ) : Prop :=
  ∀ (i j : ℕ) (t : String) (a b : AnchorQ), i ≠ j →
    s.instanceTraces[i]? = some (some t, a) →
    s.instanceTraces[j]? = some (some t, b) → distLt a b r = false

/-- The layout-relevant portion of the state: every field of `LS` that is
either read by the layout functions or part of the layout's observable
output.  The diagnostic side channels (`warnings`, `sdfIcons`) and the
write-only instrumentation lists are excluded. -/
structure LSCore where
  symbolInstances : List SymbolInstanceQ
  collisionBoxLen : ℕ
  lineVertexLen : ℕ
  placedTextLen : ℕ
  placedIconLen : ℕ
  glyphOffsetLen : ℕ
  compareText : String → Option (List AnchorQ)
  tilePixelRatio : ℚ
  instanceTraces : List (Option String × AnchorQ)

/-- Project a layout state to its layout-relevant core. -/
def LS.core (s : LS) : LSCore :=
  ⟨s.symbolInstances, s.collisionBoxLen, s.lineVertexLen, s.placedTextLen,
   s.placedIconLen, s.glyphOffsetLen, s.compareText, s.tilePixelRatio, s.instanceTraces⟩

/- ===== Generic helpers ===== -/

/-- A fold preserves any projection its step preserves. -/
theorem foldl_proj_const {α σ β : Type _} (proj : σ → β) (f : σ → α → σ)
    (h : ∀ s x, proj (f s x) = proj s) (l : List α) (s : σ) :
    proj (l.foldl f s) = proj s := by
  induction l generalizing s with
  | nil => rfl
  | cons x xs ih => rw [List.foldl_cons, ih, h]

/-- A fold preserves any invariant its step preserves. -/
theorem foldl_inv {α σ : Type _} (P : σ → Prop) (f : σ → α → σ)
    (h : ∀ s x, P s → P (f s x)) (l : List α) (s : σ) (hs : P s) :
    P (l.foldl f s) := by
  induction l generalizing s with
  | nil => exact hs
  | cons x xs ih => exact ih _ (h _ _ hs)

/- ===== Fields left unchanged by the assembler ===== -/

/-- The layout-state fields `addTextVertices` never touches. -/
theorem addTextVertices_stable (ex : Externs) (bucket : BucketInput) (anchor : AnchorQ)
    (sh : ShapingQ) (tal : Bool) (f : FeatureQ) (toff : ℚ × ℚ) (la : ℕ × ℕ)
    (wm : WritingModeE) (pts : List ℕ) (sizes : SizesQ) (s : LS) :
    (addTextVertices ex bucket anchor sh tal f toff la wm pts sizes s).2.2.compareText
        = s.compareText
    ∧ (addTextVertices ex bucket anchor sh tal f toff la wm pts sizes s).2.2.instanceTraces
        = s.instanceTraces
    ∧ (addTextVertices ex bucket anchor sh tal f toff la wm pts sizes s).2.2.anchorAttempts
        = s.anchorAttempts
    ∧ (addTextVertices ex bucket anchor sh tal f toff la wm pts sizes s).2.2.textMaxSizeTrace
        = s.textMaxSizeTrace
    ∧ (addTextVertices ex bucket anchor sh tal f toff la wm pts sizes s).2.2.tilePixelRatio
        = s.tilePixelRatio
    ∧ (addTextVertices ex bucket anchor sh tal f toff la wm pts sizes s).2.2.symbolInstances
        = s.symbolInstances
    ∧ (addTextVertices ex bucket anchor sh tal f toff la wm pts sizes s).2.2.shapingAttempts
        = s.shapingAttempts := by
  unfold addTextVertices
  cases bucket.textSizeData.functionType <;>
    simp [recordAddSymbols, pushWarning] <;> split <;> simp [pushWarning]

/-- The layout-state fields `addSymbol` never touches. -/
theorem addSymbol_stable (ex : Externs) (bucket : BucketInput) (anchor : AnchorQ)
    (line : List Pt) (sto : ShapedTextOrientations) (si : Option PositionedIconQ)
    (fi sli bi : ℕ) (tbs : Option ℚ) (tp : ℚ) (tal : Bool) (toff : ℚ × ℚ)
    (ibs : Option ℚ) (ip : ℚ) (ial : Bool) (ioff : ℚ × ℚ)
    (f : FeatureQ) (sizes : SizesQ) (s : LS) :
    (addSymbol ex bucket anchor line sto si fi sli bi tbs tp tal toff ibs ip ial ioff
        f sizes s).2.compareText = s.compareText
    ∧ (addSymbol ex bucket anchor line sto si fi sli bi tbs tp tal toff ibs ip ial ioff
        f sizes s).2.instanceTraces = s.instanceTraces
    ∧ (addSymbol ex bucket anchor line sto si fi sli bi tbs tp tal toff ibs ip ial ioff
        f sizes s).2.anchorAttempts = s.anchorAttempts
    ∧ (addSymbol ex bucket anchor line sto si fi sli bi tbs tp tal toff ibs ip ial ioff
        f sizes s).2.textMaxSizeTrace = s.textMaxSizeTrace
    ∧ (addSymbol ex bucket anchor line sto si fi sli bi tbs tp tal toff ibs ip ial ioff
        f sizes s).2.tilePixelRatio = s.tilePixelRatio
    ∧ (addSymbol ex bucket anchor line sto si fi sli bi tbs tp tal toff ibs ip ial ioff
        f sizes s).2.symbolInstances = s.symbolInstances
    ∧ (addSymbol ex bucket anchor line sto si fi sli bi tbs tp tal toff ibs ip ial ioff
        f sizes s).2.shapingAttempts = s.shapingAttempts := by
  unfold addSymbol
  cases hh : sto.horizontal <;> cases hv : sto.vertical <;> cases hi : si <;>
    cases bucket.iconSizeData.functionType <;>
    simp [mkCollisionFeature, recordAddSymbols, pushWarning, addTextVertices_stable,
      apply_ite LS.compareText, apply_ite LS.instanceTraces, apply_ite LS.anchorAttempts,
      apply_ite LS.textMaxSizeTrace, apply_ite LS.tilePixelRatio,
      apply_ite LS.symbolInstances, apply_ite LS.shapingAttempts]

/-- Fields `anchorIsTooClose` never touches (it only updates `compareText`). -/
theorem anchorIsTooClose_stable (s : LS) (text : String) (rd : ℚ) (a : AnchorQ) :
    (anchorIsTooClose s text rd a).2.instanceTraces = s.instanceTraces
    ∧ (anchorIsTooClose s text rd a).2.tilePixelRatio = s.tilePixelRatio
    ∧ (anchorIsTooClose s text rd a).2.anchorAttempts = s.anchorAttempts
    ∧ (anchorIsTooClose s text rd a).2.textMaxSizeTrace = s.textMaxSizeTrace
    ∧ (anchorIsTooClose s text rd a).2.symbolInstances = s.symbolInstances := by
  unfold anchorIsTooClose
  cases h : s.compareText text
  · simp [h]
  · simp only [h]
    split <;> simp

/-- Effect of `addSymbolAtAnchor` on the instrumentation-relevant fields:
`compareText`, `anchorAttempts`, `textMaxSizeTrace`, `tilePixelRatio` are
untouched; out-of-bounds anchors leave the state unchanged, in-bounds
anchors append exactly one instance and one trace entry. -/
theorem addSymbolAtAnchor_effects (ex : Externs) (bucket : BucketInput) (ctx : FeatureCtx)
    (line : List Pt) (a : AnchorQ) (s : LS) :
    (addSymbolAtAnchor ex bucket ctx line a s).compareText = s.compareText
    ∧ (addSymbolAtAnchor ex bucket ctx line a s).anchorAttempts = s.anchorAttempts
    ∧ (addSymbolAtAnchor ex bucket ctx line a s).textMaxSizeTrace = s.textMaxSizeTrace
    ∧ (addSymbolAtAnchor ex bucket ctx line a s).tilePixelRatio = s.tilePixelRatio
    ∧ (addSymbolAtAnchor ex bucket ctx line a s).shapingAttempts = s.shapingAttempts
    ∧ ((addSymbolAtAnchor ex bucket ctx line a s).instanceTraces = s.instanceTraces
       ∨ (addSymbolAtAnchor ex bucket ctx line a s).instanceTraces
           = s.instanceTraces
             ++ [(Option.map ShapingQ.text ctx.shapedTextOrientations.horizontal, a)]) := by
  unfold addSymbolAtAnchor
  split
  · simp
  · simp [addSymbol_stable]

/-- In-bounds case of `addSymbolAtAnchor`: exactly one instance and one
trace entry are appended. -/
theorem addSymbolAtAnchor_inBounds (ex : Externs) (bucket : BucketInput) (ctx : FeatureCtx)
    (line : List Pt) (a : AnchorQ) (s : LS)
    (h : ¬(a.x < 0 ∨ EXTENT ≤ a.x ∨ a.y < 0 ∨ EXTENT ≤ a.y)) :
    (addSymbolAtAnchor ex bucket ctx line a s).instanceTraces
      = s.instanceTraces
        ++ [(Option.map ShapingQ.text ctx.shapedTextOrientations.horizontal, a)]
    ∧ (addSymbolAtAnchor ex bucket ctx line a s).symbolInstances.length
      = s.symbolInstances.length + 1 := by
  unfold addSymbolAtAnchor
  rw [if_neg h]
  simp [addSymbol_stable]

/-- Effect of `attemptAnchor`: the candidate anchor is recorded, the
other instrumentation-stable fields are untouched. -/
theorem attemptAnchor_effects (ex : Externs) (bucket : BucketInput) (ctx : FeatureCtx)
    (line : List Pt) (a : AnchorQ) (s : LS) :
    (attemptAnchor ex bucket ctx line a s).compareText = s.compareText
    ∧ (attemptAnchor ex bucket ctx line a s).anchorAttempts = s.anchorAttempts ++ [a]
    ∧ (attemptAnchor ex bucket ctx line a s).textMaxSizeTrace = s.textMaxSizeTrace
    ∧ (attemptAnchor ex bucket ctx line a s).tilePixelRatio = s.tilePixelRatio := by
  unfold attemptAnchor
  have h := addSymbolAtAnchor_effects ex bucket ctx line a
    { s with anchorAttempts := s.anchorAttempts ++ [a] }
  exact ⟨h.1, h.2.1, h.2.2.1, h.2.2.2.1⟩

/-- `addFeature` records exactly one resolved `textMaxSize` per call and
nothing in its anchor loops touches that trace. -/
theorem addFeature_textMaxSizeTrace (ex : Externs) (bucket : BucketInput) (f : FeatureQ)
    (sto : ShapedTextOrientations) (si : Option PositionedIconQ) (sizes : SizesQ) (s : LS) :
    (addFeature ex bucket f sto si sizes s).textMaxSizeTrace
      = s.textMaxSizeTrace ++ [resolveTextMaxSize sizes f] := by
  have hA : ∀ ctx line a t, (attemptAnchor ex bucket ctx line a t).textMaxSizeTrace
      = t.textMaxSizeTrace :=
    fun ctx line a t => (attemptAnchor_effects ex bucket ctx line a t).2.2.1
  have hL : ∀ ctx rd line t a,
      (lineAnchorStep ex bucket ctx rd line t a).textMaxSizeTrace = t.textMaxSizeTrace := by
    intro ctx rd line t a
    unfold lineAnchorStep
    cases hh : ctx.shapedTextOrientations.horizontal
    · exact hA _ _ _ _
    · dsimp only
      split
      · exact (anchorIsTooClose_stable t _ rd a).2.2.2.1
      · rw [hA]
        exact (anchorIsTooClose_stable t _ rd a).2.2.2.1
  cases hp : bucket.layout.symbolPlacement
  case line =>
    simp only [addFeature, hp]
    refine Eq.trans (foldl_proj_const LS.textMaxSizeTrace _ ?_ _ _) ?_
    · intro t line
      exact foldl_proj_const LS.textMaxSizeTrace _ (hL _ _ line) _ t
    · rfl
  case lineCenter =>
    simp only [addFeature, hp]
    refine Eq.trans (foldl_proj_const LS.textMaxSizeTrace _ ?_ _ _) ?_
    · intro t line
      dsimp only
      split
      · split
        · exact hA _ _ _ _
        · rfl
      · rfl
    · rfl
  case point =>
    cases ht : f.type
    case point =>
      simp only [addFeature, hp, ht]
      refine Eq.trans (foldl_proj_const LS.textMaxSizeTrace _ ?_ _ _) ?_
      · intro t points
        exact foldl_proj_const LS.textMaxSizeTrace _ (fun t p => hA _ _ _ t) _ t
      · rfl
    case lineString =>
      simp only [addFeature, hp, ht]
      refine Eq.trans (foldl_proj_const LS.textMaxSizeTrace _ ?_ _ _) ?_
      · intro t line
        exact hA _ _ _ _
      · rfl
    case polygon =>
      simp only [addFeature, hp, ht]
      refine Eq.trans (foldl_proj_const LS.textMaxSizeTrace _ ?_ _ _) ?_
      · intro t polygon
        exact hA _ _ _ _
      · rfl

/- ===== C1 ===== -/

/-- C1: for a bucket whose text-size data has functionType source,
`addTextVertices` emits the text-size overflow warning exactly once per
evaluate call whenever the evaluated size is 256 or above, does not emit
it for 255.9, and in either case still passes the packed value on to
`addSymbols`. -/
theorem addTextVertices_source_overflow_warning
    (ex : Externs) (bucket : BucketInput) (anchor : AnchorQ) (sh : ShapingQ)
    (tal : Bool) (f : FeatureQ) (toff : ℚ × ℚ) (la : ℕ × ℕ) (wm : WritingModeE)
    (pts : List ℕ) (sizes : SizesQ) (s : LS) (q : ℚ)
    (hsource : bucket.textSizeData.functionType = SizeFunctionType.sourceT)
    (heval : bucket.layout.textSize f = some q) :
    (256 ≤ q →
      (addTextVertices ex bucket anchor sh tal f toff la wm pts sizes s).2.2.warnings
        = s.warnings ++ [WarningQ.textSizeOverflow bucket.layerId])
    ∧ (q = (2559 : ℚ) / 10 →
      (addTextVertices ex bucket anchor sh tal f toff la wm pts sizes s).2.2.warnings
        = s.warnings)
    ∧ (addTextVertices ex bucket anchor sh tal f toff la wm pts sizes s).2.2.addSymbolsCalls
        = s.addSymbolsCalls ++
          [{ target := TargetArray.text,
             quadCount := ex.glyphQuadCount anchor sh tal f,
             sizeData := some [some (SIZE_PACK_FACTOR * q)],
             offset := toff, alongLine := tal, writingMode := some wm,
             anchor := anchor, lineStartIndex := la.1, lineLength := la.2 }] := by
  unfold addTextVertices
  simp only [hsource, heval, Option.map_some']
  refine ⟨?_, ?_, ?_⟩
  · intro h256
    have hc : optGt (some (SIZE_PACK_FACTOR * q)) MAX_PACKED_SIZE = true := by
      simp only [optGt, decide_eq_true_eq, MAX_PACKED_SIZE, SIZE_PACK_FACTOR]
      nlinarith
    simp [hc, recordAddSymbols, pushWarning]
  · intro hq
    subst hq
    have hc : optGt (some (SIZE_PACK_FACTOR * ((2559 : ℚ) / 10))) MAX_PACKED_SIZE = false := by
      simp only [optGt, MAX_PACKED_SIZE, SIZE_PACK_FACTOR, decide_eq_false_iff_not]
      norm_num
    simp [hc, recordAddSymbols]
  · split <;> simp [recordAddSymbols, pushWarning]

/-- Witness for C1 at a concrete overflowing input (text-size 300). -/
theorem addTextVertices_source_overflow_warning_witness :
    (addTextVertices exA bucketA ⟨0, 0, 0, none⟩ ⟨"T"⟩ false featA (0, 0) (0, 0)
        WritingModeE.horizontalOnly [] (mkSizes bucketA) ls0).2.2.warnings
      = ls0.warnings ++ [WarningQ.textSizeOverflow bucketA.layerId] :=
  (addTextVertices_source_overflow_warning exA bucketA ⟨0, 0, 0, none⟩ ⟨"T"⟩ false featA
    (0, 0) (0, 0) WritingModeE.horizontalOnly [] (mkSizes bucketA) ls0 300 rfl rfl).1
    (by norm_num)

/- ===== C6 ===== -/

/-- C6: during the per-feature loop, the horizontal writing mode is
shaped exactly for features with text, and a vertical shaping is
attempted iff the unformatted text allows vertical writing, the
rotation alignment is map with non-point placement, and keep-upright is
enabled. -/
theorem vertical_shaping_condition (ex : Externs) (bucket : BucketInput) (f : FeatureQ) :
    (shapeFeature ex bucket f).2.horizontalAttempted = f.text.isSome
    ∧ ((shapeFeature ex bucket f).2.verticalAttempted = true ↔
        (f.text.isSome = true
         ∧ ex.allowsVerticalWritingMode (unformattedOf f.text) = true
         ∧ bucket.layout.textRotationAlignment = AlignmentQ.map
         ∧ bucket.layout.symbolPlacement ≠ PlacementQ.point
         ∧ bucket.layout.textKeepUpright = true)) := by
  unfold shapeFeature
  cases ht : f.text <;>
    simp [ht, unformattedOf, Bool.and_eq_true, decide_eq_true_eq, and_assoc]

/-- Witness for C6 at a concrete feature with text. -/
theorem vertical_shaping_condition_witness :
    (shapeFeature exA bucketA featA).2.horizontalAttempted = featA.text.isSome :=
  (vertical_shaping_condition exA bucketA featA).1

/- ===== C7 ===== -/

/-- C7: the max text size of the `Sizes` bundle is the text-size
expression evaluated at zoom 18, and for every feature whose zoom-18
evaluation is undefined, `addFeature` resolves the per-feature max size
to the layout-zoom+1 value (`layoutTextSize`); one resolution is
recorded per `addFeature` call. -/
theorem textMaxSize_zoom18_fallback (bucket : BucketInput) (ex : Externs)
    (sizes : SizesQ) (f : FeatureQ) (sto : ShapedTextOrientations)
    (si : Option PositionedIconQ) (s : LS) :
    (mkSizes bucket).textMaxSize = bucket.unevalTextSize 18
    ∧ (sizes.textMaxSize f = none →
        resolveTextMaxSize sizes f = sizes.layoutTextSize f)
    ∧ (∀ v, sizes.textMaxSize f = some v → resolveTextMaxSize sizes f = some v)
    ∧ (addFeature ex bucket f sto si sizes s).textMaxSizeTrace
        = s.textMaxSizeTrace ++ [resolveTextMaxSize sizes f] := by
  refine ⟨rfl, ?_, ?_, addFeature_textMaxSizeTrace ex bucket f sto si sizes s⟩
  · intro h
    simp [resolveTextMaxSize, h]
  · intro v h
    simp [resolveTextMaxSize, h]

/-- Witness for C7 at a concrete bucket whose zoom-18 text-size
evaluation is undefined. -/
theorem textMaxSize_zoom18_fallback_witness :
    (mkSizes bucketN).textMaxSize featA = none
    ∧ resolveTextMaxSize (mkSizes bucketN) featA = (mkSizes bucketN).layoutTextSize featA :=
  ⟨rfl,
   (textMaxSize_zoom18_fallback bucketN exA (mkSizes bucketN) featA ⟨none, none⟩ none
      ls0).2.1 rfl⟩

/- ===== C2 ===== -/

/-- Anchor attempts recorded by the inner point loop. -/
theorem foldl_attempts_points (ex : Externs) (bucket : BucketInput) (ctx : FeatureCtx) :
    ∀ (pts : List Pt) (t : LS),
      (pts.foldl (fun t p => attemptAnchor ex bucket ctx [p] ⟨p.x, p.y, 0, none⟩ t) t).anchorAttempts
        = t.anchorAttempts ++ pts.map (fun p => AnchorQ.mk p.x p.y 0 none) := by
  intro pts
  induction pts with
  | nil => intro t; simp
  | cons p rest ih =>
      intro t
      rw [List.foldl_cons, ih, (attemptAnchor_effects ex bucket ctx _ _ t).2.1]
      simp

/-- C2: for symbol-placement point on Point geometry, `addFeature` hands
exactly one candidate anchor per input point to `addSymbolAtAnchor`,
each with rotation 0; and for every placement, `addSymbolAtAnchor`
returns its state unchanged for an anchor outside `[0, EXTENT)` on
either axis. -/
theorem point_placement_anchors (ex : Externs) (bucket : BucketInput) (f : FeatureQ)
    (sto : ShapedTextOrientations) (si : Option PositionedIconQ) (sizes : SizesQ) (s : LS)
    (hplace : bucket.layout.symbolPlacement = PlacementQ.point)
    (htype : f.type = GeomType.point) :
    (addFeature ex bucket f sto si sizes s).anchorAttempts
      = s.anchorAttempts ++ f.geometry.flatten.map (fun p => AnchorQ.mk p.x p.y 0 none)
    ∧ ∀ (ctx : FeatureCtx) (line : List Pt) (a : AnchorQ) (t : LS),
        (a.x < 0 ∨ EXTENT ≤ a.x ∨ a.y < 0 ∨ EXTENT ≤ a.y) →
        addSymbolAtAnchor ex bucket ctx line a t = t := by
  constructor
  · simp only [addFeature, hplace, htype]
    have houter : ∀ (geo : List (List Pt)) (t : LS) (ctx : FeatureCtx),
        (geo.foldl (fun t pts =>
          pts.foldl (fun t p => attemptAnchor ex bucket ctx [p] ⟨p.x, p.y, 0, none⟩ t) t)
          t).anchorAttempts
          = t.anchorAttempts ++ geo.flatten.map (fun p => AnchorQ.mk p.x p.y 0 none) := by
      intro geo
      induction geo with
      | nil => intro t ctx; simp
      | cons pts rest ih =>
          intro t ctx
          rw [List.foldl_cons, ih, foldl_attempts_points]
          simp
    exact houter _ _ _
  · intro ctx line a t h
    unfold addSymbolAtAnchor
    rw [if_pos h]

/-- Witness for C2: one in-bounds point feature, and one out-of-bounds
anchor that is dropped. -/
theorem point_placement_anchors_witness :
    (addFeature exA bucketA featA ⟨some ⟨"T"⟩, none⟩ none (mkSizes bucketA) ls0).anchorAttempts
      = ls0.anchorAttempts ++ featA.geometry.flatten.map (fun p => AnchorQ.mk p.x p.y 0 none)
    ∧ addSymbolAtAnchor exA bucketA ctxA [] ⟨-1, 0, 0, none⟩ ls0 = ls0 :=
  ⟨(point_placement_anchors exA bucketA featA ⟨some ⟨"T"⟩, none⟩ none (mkSizes bucketA)
      ls0 rfl rfl).1,
   (point_placement_anchors exA bucketA featA ⟨some ⟨"T"⟩, none⟩ none (mkSizes bucketA)
      ls0 rfl rfl).2 ctxA [] ⟨-1, 0, 0, none⟩ ls0 (Or.inl (by norm_num))⟩

/- ===== C4 / C5 helpers ===== -/

/-- `addTextVertices` never records collision-feature constructor calls
nor icon quad requests. -/
theorem addTextVertices_collisionCalls (ex : Externs) (bucket : BucketInput)
    (anchor : AnchorQ) (sh : ShapingQ) (tal : Bool) (f : FeatureQ) (toff : ℚ × ℚ)
    (la : ℕ × ℕ) (wm : WritingModeE) (pts : List ℕ) (sizes : SizesQ) (s : LS) :
    (addTextVertices ex bucket anchor sh tal f toff la wm pts sizes s).2.2.collisionCalls
        = s.collisionCalls
    ∧ (addTextVertices ex bucket anchor sh tal f toff la wm pts sizes s).2.2.iconQuadAlongLine
        = s.iconQuadAlongLine := by
  unfold addTextVertices
  cases bucket.textSizeData.functionType <;>
    simp [recordAddSymbols, pushWarning] <;> split <;> simp [pushWarning]

/-- The exact CollisionFeature constructor calls and icon quad requests
`addSymbol` performs: at most one text call (aligned per
`textAlongLine`) and at most one icon call with the align-to-line flag
hard-coded `false`, while the icon quads are requested with
`iconAlongLine`. -/
theorem addSymbol_collisionCalls (ex : Externs) (bucket : BucketInput) (anchor : AnchorQ)
    (line : List Pt) (sto : ShapedTextOrientations) (si : Option PositionedIconQ)
    (fi sli bi : ℕ) (tbs : Option ℚ) (tp : ℚ) (tal : Bool) (toff : ℚ × ℚ)
    (ibs : Option ℚ) (ip : ℚ) (ial : Bool) (ioff : ℚ × ℚ)
    (f : FeatureQ) (sizes : SizesQ) (s : LS) :
    (addSymbol ex bucket anchor line sto si fi sli bi tbs tp tal toff ibs ip ial ioff
        f sizes s).2.collisionCalls
      = s.collisionCalls
        ++ (match sto.horizontal with
            | some sh =>
                [{ line := line, anchor := anchor, featureIndex := fi,
                   sourceLayerIndex := sli, bucketIndex := bi, shaped := ShapedRef.text sh,
                   boxScale := tbs, padding := tp, alignLine := tal,
                   overscaling := bucket.overscaling,
                   rotate := bucket.layout.textRotate f }]
            | none => [])
        ++ (match si with
            | some ic =>
                [{ line := line, anchor := anchor, featureIndex := fi,
                   sourceLayerIndex := sli, bucketIndex := bi, shaped := ShapedRef.icon ic,
                   boxScale := ibs, padding := ip, alignLine := false,
                   overscaling := bucket.overscaling,
                   rotate := bucket.layout.iconRotate f }]
            | none => [])
    ∧ (addSymbol ex bucket anchor line sto si fi sli bi tbs tp tal toff ibs ip ial ioff
        f sizes s).2.iconQuadAlongLine
      = s.iconQuadAlongLine ++ (match si with
          | some _ => [ial]
          | none => []) := by
  cases hh : sto.horizontal <;> cases hv : sto.vertical <;> cases hi : si <;>
    cases hft : bucket.iconSizeData.functionType <;>
    simp [addSymbol, hh, hv, hi, hft, mkCollisionFeature, recordAddSymbols, pushWarning,
      addTextVertices_collisionCalls,
      apply_ite LS.collisionCalls, apply_ite LS.iconQuadAlongLine]

/- ===== C4 ===== -/

/-- C4: for a feature with an icon but no horizontal text shape, the
symbol instance returned by `addSymbol` has an empty text collision
range at the current collision-box array length and zero glyph
vertices, while its icon collision range and icon vertex count reflect
the icon. -/
theorem icon_only_instance_shape (ex : Externs) (bucket : BucketInput) (anchor : AnchorQ)
    (line : List Pt) (sto : ShapedTextOrientations) (si : Option PositionedIconQ)
    (fi sli bi : ℕ) (tbs : Option ℚ) (tp : ℚ) (tal : Bool) (toff : ℚ × ℚ)
    (ibs : Option ℚ) (ip : ℚ) (ial : Bool) (ioff : ℚ × ℚ) (f : FeatureQ)
    (sizes : SizesQ) (s : LS) (ic : PositionedIconQ)
    (hnoh : sto.horizontal = none) (hicon : si = some ic) :
    (addSymbol ex bucket anchor line sto si fi sli bi tbs tp tal toff ibs ip ial ioff
        f sizes s).1.textBoxStartIndex = s.collisionBoxLen
    ∧ (addSymbol ex bucket anchor line sto si fi sli bi tbs tp tal toff ibs ip ial ioff
        f sizes s).1.textBoxEndIndex = s.collisionBoxLen
    ∧ (addSymbol ex bucket anchor line sto si fi sli bi tbs tp tal toff ibs ip ial ioff
        f sizes s).1.numGlyphVertices = 0
    ∧ (addSymbol ex bucket anchor line sto si fi sli bi tbs tp tal toff ibs ip ial ioff
        f sizes s).1.numVerticalGlyphVertices = 0
    ∧ (addSymbol ex bucket anchor line sto si fi sli bi tbs tp tal toff ibs ip ial ioff
        f sizes s).1.iconBoxStartIndex = s.collisionBoxLen
    ∧ (addSymbol ex bucket anchor line sto si fi sli bi tbs tp tal toff ibs ip ial ioff
        f sizes s).1.iconBoxEndIndex
        = s.collisionBoxLen + ex.collisionBoxCount
            { line := line, anchor := anchor, featureIndex := fi, sourceLayerIndex := sli,
              bucketIndex := bi, shaped := ShapedRef.icon ic, boxScale := ibs,
              padding := ip, alignLine := false, overscaling := bucket.overscaling,
              rotate := bucket.layout.iconRotate f }
    ∧ (addSymbol ex bucket anchor line sto si fi sli bi tbs tp tal toff ibs ip ial ioff
        f sizes s).1.numIconVertices = ex.iconQuadCount anchor ic ial none f * 4 := by
  subst hicon
  cases hft : bucket.iconSizeData.functionType <;>
    simp [addSymbol, hnoh, hft, mkCollisionFeature, recordAddSymbols, pushWarning]

/-- Witness for C4 at a concrete icon-only call. -/
theorem icon_only_instance_shape_witness :
    (addSymbol exA bucketA ⟨0, 0, 0, none⟩ [] ⟨none, none⟩ (some ⟨0⟩) 0 0 0
        (some 1) 2 false (0, 0) (some 1) 2 false (0, 0) featA (mkSizes bucketA)
        ls0).1.textBoxStartIndex = ls0.collisionBoxLen
    ∧ (addSymbol exA bucketA ⟨0, 0, 0, none⟩ [] ⟨none, none⟩ (some ⟨0⟩) 0 0 0
        (some 1) 2 false (0, 0) (some 1) 2 false (0, 0) featA (mkSizes bucketA)
        ls0).1.numGlyphVertices = 0 :=
  ⟨(icon_only_instance_shape exA bucketA ⟨0, 0, 0, none⟩ [] ⟨none, none⟩ (some ⟨0⟩) 0 0 0
      (some 1) 2 false (0, 0) (some 1) 2 false (0, 0) featA (mkSizes bucketA) ls0 ⟨0⟩
      rfl rfl).1,
   (icon_only_instance_shape exA bucketA ⟨0, 0, 0, none⟩ [] ⟨none, none⟩ (some ⟨0⟩) 0 0 0
      (some 1) 2 false (0, 0) (some 1) 2 false (0, 0) featA (mkSizes bucketA) ls0 ⟨0⟩
      rfl rfl).2.2.1⟩

/- ===== C5 ===== -/

/-- C5: every CollisionFeature constructor call `addSymbol` makes for an
icon shape passes the align-to-line flag as `false`, for every value of
`iconAlongLine`, while the icon quads are requested with the
`iconAlongLine` flag. -/
theorem icon_collision_never_aligned (ex : Externs) (bucket : BucketInput) (anchor : AnchorQ)
    (line : List Pt) (sto : ShapedTextOrientations) (si : Option PositionedIconQ)
    (fi sli bi : ℕ) (tbs : Option ℚ) (tp : ℚ) (tal : Bool) (toff : ℚ × ℚ)
    (ibs : Option ℚ) (ip : ℚ) (ial : Bool) (ioff : ℚ × ℚ) (f : FeatureQ)
    (sizes : SizesQ) (s : LS) :
    (∀ c ∈ (addSymbol ex bucket anchor line sto si fi sli bi tbs tp tal toff ibs ip ial
        ioff f sizes s).2.collisionCalls.drop s.collisionCalls.length,
      ∀ ic, c.shaped = ShapedRef.icon ic → c.alignLine = false)
    ∧ (addSymbol ex bucket anchor line sto si fi sli bi tbs tp tal toff ibs ip ial ioff
        f sizes s).2.iconQuadAlongLine
      = s.iconQuadAlongLine ++ (match si with
          | some _ => [ial]
          | none => []) := by
  obtain ⟨hc, hq⟩ := addSymbol_collisionCalls ex bucket anchor line sto si fi sli bi tbs
    tp tal toff ibs ip ial ioff f sizes s
  refine ⟨?_, hq⟩
  rw [hc, List.append_assoc, List.drop_left]
  intro c hmem ic hic
  rcases List.mem_append.mp hmem with h | h
  · cases hh : sto.horizontal <;> rw [hh] at h <;> simp at h
    subst h
    simp at hic
  · cases hi : si <;> rw [hi] at h <;> simp at h
    subst h
    rfl

/-- Witness for C5: a concrete `addSymbol` call with `iconAlongLine`
set; the recorded icon collision call still carries `alignLine = false`. -/
theorem icon_collision_never_aligned_witness :
    ({ line := [], anchor := ⟨0, 0, 0, none⟩, featureIndex := 0, sourceLayerIndex := 0,
       bucketIndex := 0, shaped := ShapedRef.icon ⟨0⟩, boxScale := some 1, padding := 2,
       alignLine := false, overscaling := bucketA.overscaling,
       rotate := bucketA.layout.iconRotate featA } : CollisionCall).alignLine = false :=
  (icon_collision_never_aligned exA bucketA ⟨0, 0, 0, none⟩ [] ⟨none, none⟩ (some ⟨0⟩)
    0 0 0 (some 1) 2 false (0, 0) (some 1) 2 true (0, 0) featA (mkSizes bucketA) ls0).1 _
    (by simp [addSymbol_collisionCalls, ls0]) ⟨0⟩ rfl

/- ===== Sequential-write lemmas for the debug vertex/index arrays ===== -/

theorem length_setSeq (xs : List α) : ∀ (l : List α) (n : ℕ),
    (setSeq l n xs).length = l.length := by
  induction xs with
  | nil => intro l n; rfl
  | cons x rest ih => intro l n; simp [setSeq, ih]

theorem setSeq_append (xs ys : List α) : ∀ (l : List α) (n : ℕ),
    setSeq l n (xs ++ ys) = setSeq (setSeq l n xs) (n + xs.length) ys := by
  induction xs with
  | nil => intro l n; simp [setSeq]
  | cons x rest ih =>
      intro l n
      show setSeq (l.set n x) (n + 1) (rest ++ ys)
        = setSeq (setSeq (l.set n x) (n + 1) rest) (n + (rest.length + 1)) ys
      rw [ih]
      have h : n + 1 + rest.length = n + (rest.length + 1) := by omega
      rw [h]

/-- Writing `xs` at in-range consecutive positions replaces exactly that
segment of the array. -/
theorem setSeq_spec (xs : List α) : ∀ (l : List α) (n : ℕ),
    n + xs.length ≤ l.length →
    setSeq l n xs = l.take n ++ xs ++ l.drop (n + xs.length) := by
  induction xs with
  | nil =>
      intro l n h
      simp [setSeq, List.take_append_drop]
  | cons x rest ih =>
      intro l n h
      have hn : n < l.length := by simp at h; omega
      have hset : l.set n x = l.take n ++ x :: l.drop (n + 1) := by
        rw [List.set_eq_take_append_cons_drop, if_pos hn]
      have hlen : (l.set n x).length = l.length := by simp
      have hbound : (n + 1) + rest.length ≤ (l.set n x).length := by
        simp at h ⊢; omega
      have htake : (l.set n x).take (n + 1) = l.take n ++ [x] := by
        rw [hset, List.take_append_eq_append_take, List.take_take]
        have h1 : min (n + 1) n = n := by omega
        have h2 : n + 1 - (l.take n).length = 1 := by
          rw [List.length_take]
          omega
        rw [h1, h2]
        rfl
      have hdrop : (l.set n x).drop (n + 1 + rest.length) = l.drop (n + 1 + rest.length) := by
        rw [List.drop_set, if_pos (by omega)]
      calc setSeq l n (x :: rest) = setSeq (l.set n x) (n + 1) rest := rfl
        _ = (l.set n x).take (n + 1) ++ rest ++ (l.set n x).drop (n + 1 + rest.length) :=
              ih _ _ hbound
        _ = (l.take n ++ [x]) ++ rest ++ l.drop (n + 1 + rest.length) := by
              rw [htake, hdrop]
        _ = l.take n ++ (x :: rest) ++ l.drop (n + (rest.length + 1)) := by
              have h3 : n + 1 + rest.length = n + (rest.length + 1) := by omega
              rw [h3]
              simp

/- ===== Gather-loop lemmas ===== -/

/-- The circle count accumulated by the gather loop is the total circle
count of the bucketed tiles. -/
theorem gather_count (isText : Bool) (tiles : List DebugTileQ) :
    ∀ (acc : List TileBatchQ × ℕ × List DrawEventQ),
      (tiles.foldl (gatherStep isText) acc).2.1 = acc.2.1 + totalCircleCount tiles := by
  induction tiles with
  | nil => intro acc; simp [totalCircleCount]
  | cons t rest ih =>
      intro acc
      rw [List.foldl_cons, ih]
      have ht : totalCircleCount (t :: rest)
          = (if t.hasBucket then t.circles.length else 0) + totalCircleCount rest := rfl
      rw [ht]
      cases hb : t.hasBucket
      · simp [gatherStep, hb]
      · simp only [gatherStep, hb, Bool.not_true, Bool.false_eq_true, if_false, if_true]
        split <;> omega

/-- Every batch gathered covers circles below the accumulated count. -/
theorem gather_batch_bound (isText : Bool) (tiles : List DebugTileQ) :
    ∀ (acc : List TileBatchQ × ℕ × List DrawEventQ),
      (∀ b ∈ acc.1, b.circleOffset + b.circles.length ≤ acc.2.1) →
      ∀ b ∈ (tiles.foldl (gatherStep isText) acc).1,
        b.circleOffset + b.circles.length ≤ (tiles.foldl (gatherStep isText) acc).2.1 := by
  induction tiles with
  | nil => intro acc h; exact h
  | cons t rest ih =>
      intro acc h
      rw [List.foldl_cons]
      refine ih _ ?_
      cases hb : t.hasBucket
      · simpa [gatherStep, hb] using h
      · simp only [gatherStep, hb, Bool.not_true, Bool.false_eq_true, if_false]
        split
        · simp only [List.mem_append, List.mem_singleton]
          rintro b (hbb | rfl)
          · exact le_trans (h b hbb) (by omega)
          · simp
        · simpa using h

/-- The flat circle list of the gathered batches has exactly the
accumulated circle count. -/
theorem gather_flat_length (isText : Bool) (tiles : List DebugTileQ) :
    ∀ (acc : List TileBatchQ × ℕ × List DrawEventQ),
      ((acc.1.flatMap fun b => b.circles).length = acc.2.1) →
      (((tiles.foldl (gatherStep isText) acc).1.flatMap fun b => b.circles).length
        = (tiles.foldl (gatherStep isText) acc).2.1) := by
  induction tiles with
  | nil => intro acc h; exact h
  | cons t rest ih =>
      intro acc h
      rw [List.foldl_cons]
      refine ih _ ?_
      cases hb : t.hasBucket
      · simpa [gatherStep, hb] using h
      · simp only [gatherStep, hb, Bool.not_true, Bool.false_eq_true, if_false]
        split
        · rw [List.flatMap_append, List.length_append, h]
          simp
        · simpa using h

/-- The gather loop only issues box line draws. -/
theorem gather_events (isText : Bool) (tiles : List DebugTileQ) :
    ∀ (acc : List TileBatchQ × ℕ × List DrawEventQ),
      (∀ e ∈ acc.2.2, e = DrawEventQ.boxDraw) →
      ∀ e ∈ (tiles.foldl (gatherStep isText) acc).2.2, e = DrawEventQ.boxDraw := by
  intro acc h
  refine foldl_inv (fun a => ∀ e ∈ a.2.2, e = DrawEventQ.boxDraw)
    (gatherStep isText) ?_ tiles acc h
  intro s t hP
  cases hb : t.hasBucket
  · simpa [gatherStep, hb] using hP
  · simp only [gatherStep, hb, Bool.not_true, Bool.false_eq_true, if_false]
    intro e he
    revert he
    generalize (if isText = true then t.textBoxBuffers else t.iconBoxBuffers) = buf
    cases buf
    · simp only [Bool.false_eq_true, if_false]
      exact hP e
    · simp only [if_true, List.mem_append, List.mem_singleton]
      rintro (he | rfl)
      · exact hP e he
      · rfl

/- ===== Vertex-data construction lemmas ===== -/

/-- One circle's emplace loop writes its four vertices sequentially. -/
theorem circles_fold_setSeq (cs : List CircleQ) : ∀ (arr : List VertexQ) (n : ℕ),
    cs.foldl (fun p c => (setSeq p.1 p.2 (circleVerts c), p.2 + 4)) (arr, n)
      = (setSeq arr n (cs.flatMap circleVerts), n + 4 * cs.length) := by
  induction cs with
  | nil => intro arr n; simp [setSeq]
  | cons c rest ih =>
      intro arr n
      rw [List.foldl_cons]
      show rest.foldl _ (setSeq arr n (circleVerts c), n + 4) = _
      rw [ih, List.flatMap_cons, setSeq_append]
      have h4 : (circleVerts c).length = 4 := rfl
      rw [h4]
      have h5 : n + 4 + 4 * rest.length = n + 4 * (rest.length + 1) := by omega
      rw [h5]
      rfl

/-- The vertex buffer built by the emplace loop holds exactly four
vertices per gathered circle, in batch order, each carrying the
circle's (x, y, radius, collision) values and its corner index. -/
theorem buildVertexData_eq (batches : List TileBatchQ) (cc : ℕ)
    (hcc : (batches.flatMap fun b => b.circles).length = cc) :
    buildVertexData batches cc
      = batches.flatMap (fun b => b.circles.flatMap circleVerts) := by
  unfold buildVertexData
  have h1 : batches.foldl (fun p b =>
        b.circles.foldl (fun p c => (setSeq p.1 p.2 (circleVerts c), p.2 + 4)) p)
        (List.replicate (cc * 4) ⟨0, 0, 0, 0, 0⟩, 0)
      = (batches.flatMap fun b => b.circles).foldl
        (fun p c => (setSeq p.1 p.2 (circleVerts c), p.2 + 4))
        (List.replicate (cc * 4) ⟨0, 0, 0, 0, 0⟩, 0) := by
    rw [List.flatMap_def, List.foldl_flatten, List.foldl_map]
  rw [h1, circles_fold_setSeq, hcc]
  have hlen : ((batches.flatMap fun b => b.circles).flatMap circleVerts).length
      = 4 * cc := by
    rw [← hcc]
    generalize (batches.flatMap fun b => b.circles) = cs
    induction cs with
    | nil => rfl
    | cons c rest ih =>
        rw [List.flatMap_cons, List.length_append, ih]
        have h4 : (circleVerts c).length = 4 := rfl
        rw [h4, List.length_cons]
        omega
  rw [setSeq_spec _ _ _ (by simp only [List.length_replicate, Nat.zero_add, hlen]; omega)]
  have hdrop : (List.replicate (cc * 4) (⟨0, 0, 0, 0, 0⟩ : VertexQ)).drop
      (0 + ((batches.flatMap fun b => b.circles).flatMap circleVerts).length) = [] := by
    rw [hlen, List.drop_replicate]
    have hz : cc * 4 - (0 + 4 * cc) = 0 := by omega
    rw [hz]
    rfl
  rw [hdrop, List.flatMap_assoc]
  simp

/-- `createQuadTriangles` always yields `quadCount * 2` triangles. -/
theorem createQuadTriangles_length (quadCount : ℕ) :
    (createQuadTriangles quadCount).length = quadCount * 2 := by
  unfold createQuadTriangles
  have htrip : ∀ (l : List ℕ), (toTriples l).length = l.length / 3 := by
    intro l
    induction l using toTriples.induct with
    | case1 a b c rest ih =>
        show (toTriples (a :: b :: c :: rest)).length = _
        rw [toTriples, List.length_cons, ih]
        simp [List.length_cons]
        omega
    | case2 l h =>
        rcases l with _ | ⟨a, _ | ⟨b, _ | ⟨c, rest⟩⟩⟩
        · simp [toTriples]
        · simp [toTriples]
        · simp [toTriples]
        · exact absurd rfl (h a b c rest)
  have hcomps : ((List.range (quadCount * 2)).foldl (fun arr i =>
      setSeq arr (i * 6)
        [i * 4 + 0, i * 4 + 1, i * 4 + 2, i * 4 + 2, i * 4 + 3, i * 4 + 0])
      (List.replicate (quadCount * 2 * 3) 0)).length = quadCount * 2 * 3 := by
    rw [foldl_proj_const List.length _ (fun s x => length_setSeq _ s _)]
    simp
  rw [htrip, hcomps]
  omega

/- ===== C9 ===== -/

/-- C9: across calls of `drawCollisionDebug`, the shared `quadTriangles`
index data never shrinks, is rebuilt only when its length is
insufficient for the frame's `circleCount * 2` triangles, always covers
every circle draw issued, and the per-frame vertex and index buffers
are destroyed after all tile batches have issued their draw calls. -/
theorem quadTriangles_growth_and_destroy (isText : Bool) (tiles : List DebugTileQ)
    (st : DebugState) :
    qtLen st ≤ qtLen (drawCollisionDebug isText tiles st).1
    ∧ (∀ q, st.quadTriangles = some q → totalCircleCount tiles * 2 ≤ q.length →
        (drawCollisionDebug isText tiles st).1 = st)
    ∧ (isText = true → (gatherTiles isText tiles).1 ≠ [] →
        totalCircleCount tiles * 2 ≤ qtLen (drawCollisionDebug isText tiles st).1)
    ∧ (∀ off vl pl,
        DrawEventQ.circleDraw off vl pl ∈ (drawCollisionDebug isText tiles st).2 →
        off + pl ≤ qtLen (drawCollisionDebug isText tiles st).1)
    ∧ (isText = true → (gatherTiles isText tiles).1 ≠ [] →
        ∃ pre, (drawCollisionDebug isText tiles st).2
          = pre ++ [DrawEventQ.destroyVertexBuffer, DrawEventQ.destroyIndexBuffer]) := by
  have hcount : (gatherTiles isText tiles).2.1 = totalCircleCount tiles := by
    unfold gatherTiles
    simpa using gather_count isText tiles ([], 0, [])
  have hbound : ∀ b ∈ (gatherTiles isText tiles).1,
      b.circleOffset + b.circles.length ≤ (gatherTiles isText tiles).2.1 := by
    unfold gatherTiles
    exact gather_batch_bound isText tiles ([], 0, []) (by intro b hb; simp at hb)
  have hevents : ∀ e ∈ (gatherTiles isText tiles).2.2, e = DrawEventQ.boxDraw := by
    unfold gatherTiles
    exact gather_events isText tiles ([], 0, []) (by intro e he; simp at he)
  simp only [drawCollisionDebug]
  split
  case isTrue hguard =>
    refine ⟨le_refl _, fun q hq hle => rfl, ?_, ?_, ?_⟩
    · intro hT hne
      subst hT
      simp at hguard
      exact absurd hguard hne
    · intro off vl pl hmem
      have hbox := hevents _ hmem
      simp at hbox
    · intro hT hne
      subst hT
      simp at hguard
      exact absurd hguard hne
  case isFalse hguard =>
    have hqtlen : ∀ (q : List (ℕ × ℕ × ℕ)),
        (match st.quadTriangles with
          | none => createQuadTriangles (gatherTiles isText tiles).2.1
          | some q =>
              if q.length < (gatherTiles isText tiles).2.1 * 2 then
                createQuadTriangles (gatherTiles isText tiles).2.1
              else q) = q →
        totalCircleCount tiles * 2 ≤ q.length ∧ qtLen st ≤ q.length := by
      intro q hq
      cases hst : st.quadTriangles with
      | none =>
          rw [hst] at hq
          simp only at hq
          subst hq
          constructor
          · rw [createQuadTriangles_length, hcount]
          · simp [qtLen, hst]
      | some q0 =>
          rw [hst] at hq
          simp only at hq
          by_cases hlt : q0.length < (gatherTiles isText tiles).2.1 * 2
          · rw [if_pos hlt] at hq
            subst hq
            rw [createQuadTriangles_length]
            constructor
            · rw [hcount]
            · simp only [qtLen, hst]
              exact le_of_lt hlt
          · rw [if_neg hlt] at hq
            subst hq
            constructor
            · rw [← hcount]
              omega
            · simp [qtLen, hst]
    refine ⟨?_, ?_, ?_, ?_, ?_⟩
    · simpa [qtLen] using (hqtlen _ rfl).2
    · intro q hq hle
      rw [hq]
      dsimp only
      rw [if_neg (by rw [hcount]; omega)]
      cases st
      simp only [DebugState.mk.injEq]
      simp at hq
      rw [hq]
    · intro hT hne
      simpa [qtLen] using (hqtlen _ rfl).1
    · intro off vl pl hmem
      simp only [List.mem_append] at hmem
      rcases hmem with ((hge | hcv) | hdraw) | hdd
      · have hbox := hevents _ hge
        simp at hbox
      · simp at hcv
      · rw [List.mem_map] at hdraw
        obtain ⟨b, hb, heq⟩ := hdraw
        simp only [DrawEventQ.circleDraw.injEq] at heq
        obtain ⟨ho, hv, hp⟩ := heq
        have hble := hbound b hb
        have hcov := (hqtlen _ rfl).1
        simp only [qtLen]
        subst ho
        subst hp
        rw [← hcount] at hcov
        omega
      · simp only [List.mem_cons, List.mem_singleton] at hdd
        rcases hdd with h1 | h1 | h1 <;> simp at h1
    · intro hT hne
      exact ⟨_, rfl⟩

/-- Witness for C9 at a concrete text-pass frame with one circle and an
empty cache. -/
theorem quadTriangles_growth_and_destroy_witness :
    qtLen dst0 ≤ qtLen (drawCollisionDebug true tilesA dst0).1
    ∧ (totalCircleCount tilesA * 2 ≤ qtLen (drawCollisionDebug true tilesA dst0).1)
    ∧ ∃ pre, (drawCollisionDebug true tilesA dst0).2
        = pre ++ [DrawEventQ.destroyVertexBuffer, DrawEventQ.destroyIndexBuffer] :=
  ⟨(quadTriangles_growth_and_destroy true tilesA dst0).1,
   (quadTriangles_growth_and_destroy true tilesA dst0).2.2.1 rfl
     (by simp [gatherTiles, gatherStep, tilesA]),
   (quadTriangles_growth_and_destroy true tilesA dst0).2.2.2.2 rfl
     (by simp [gatherTiles, gatherStep, tilesA])⟩

/- ===== C10 ===== -/

/-- C10: with `isText = false`, `drawCollisionDebug` returns right after
the box line draws — the cache is untouched, no circle vertex data is
built and no circle draw or buffer event is issued, whatever circle
data the buckets hold; and in the text pass the circle vertex buffer
holds exactly four vertices per gathered circle carrying its
(x, y, radius, collision) values. -/
theorem collision_circles_only_text_pass (tiles : List DebugTileQ) (st : DebugState) :
    ((drawCollisionDebug false tiles st).1 = st
     ∧ ∀ e ∈ (drawCollisionDebug false tiles st).2, e = DrawEventQ.boxDraw)
    ∧ ((gatherTiles true tiles).1 ≠ [] →
        DrawEventQ.createVertexBuffer
            ((gatherTiles true tiles).1.flatMap (fun b => b.circles.flatMap circleVerts))
          ∈ (drawCollisionDebug true tiles st).2) := by
  constructor
  · constructor
    · simp [drawCollisionDebug]
    · intro e he
      simp only [drawCollisionDebug, Bool.not_false, Bool.true_or, if_true] at he
      refine gather_events false tiles ([], 0, []) ?_ e ?_
      · intro x hx
        simp at hx
      · unfold gatherTiles at he
        exact he
  · intro hne
    have hguard : (!true || (gatherTiles true tiles).1.isEmpty) = false := by
      simp only [Bool.not_true, Bool.false_or]
      simpa using hne
    have hflat : ((gatherTiles true tiles).1.flatMap fun b => b.circles).length
        = (gatherTiles true tiles).2.1 := by
      unfold gatherTiles
      refine gather_flat_length true tiles ([], 0, []) ?_
      simp
    have hvdata : buildVertexData (gatherTiles true tiles).1 (gatherTiles true tiles).2.1
        = (gatherTiles true tiles).1.flatMap (fun b => b.circles.flatMap circleVerts) :=
      buildVertexData_eq _ _ hflat
    simp only [drawCollisionDebug, hguard, Bool.false_eq_true, if_false]
    rw [hvdata]
    simp

/-- Witness for C10: a frame with non-empty circle data draws no
circles in the icon pass, and carries the expected vertex payload in
the text pass. -/
theorem collision_circles_only_text_pass_witness :
    (drawCollisionDebug false tilesA dst0).1 = dst0
    ∧ DrawEventQ.createVertexBuffer
        ((gatherTiles true tilesA).1.flatMap (fun b => b.circles.flatMap circleVerts))
      ∈ (drawCollisionDebug true tilesA dst0).2 :=
  ⟨(collision_circles_only_text_pass tilesA dst0).1.1,
   (collision_circles_only_text_pass tilesA dst0).2
     (by simp [gatherTiles, gatherStep, tilesA])⟩

/- ===== C3 infrastructure ===== -/

/-- Squared-distance comparison is symmetric. -/
theorem distLt_comm (a b : AnchorQ) (r : ℚ) : distLt a b r = distLt b a r := by
  unfold distLt
  have h : (a.x - b.x) * (a.x - b.x) + (a.y - b.y) * (a.y - b.y)
      = (b.x - a.x) * (b.x - a.x) + (b.y - a.y) * (b.y - a.y) := by ring
  rw [h]

/-- Indexing into a one-element extension. -/
theorem trace_append_cases {α : Type _} (tr : List α) (p : α) (i : ℕ) (q : α)
    (h : (tr ++ [p])[i]? = some q) :
    (i < tr.length ∧ tr[i]? = some q) ∨ (i = tr.length ∧ q = p) := by
  rw [List.getElem?_append] at h
  by_cases hi : i < tr.length
  · rw [if_pos hi] at h
    exact Or.inl ⟨hi, h⟩
  · rw [if_neg hi] at h
    rcases hk : i - tr.length with _ | n
    · rw [hk] at h
      simp at h
      exact Or.inr ⟨by omega, h.symm⟩
    · rw [hk] at h
      simp at h

/-- The invariant only depends on `compareText`, `instanceTraces` and
(through the distance) nothing else of the state. -/
theorem traceInv_congr (s s' : LS) (rB : ℚ)
    (hc : s'.compareText = s.compareText)
    (ht : s'.instanceTraces = s.instanceTraces)
    (h : TraceMem s ∧ TraceFar s rB) : TraceMem s' ∧ TraceFar s' rB := by
  unfold TraceMem TraceFar at *
  rw [hc, ht]
  exact h

/-- Extending the trace with an entry that has no horizontal text
preserves the invariant. -/
theorem traceInv_append_none (s s' : LS) (a : AnchorQ) (rB : ℚ)
    (hc : s'.compareText = s.compareText)
    (ht : s'.instanceTraces = s.instanceTraces ++ [(none, a)])
    (h : TraceMem s ∧ TraceFar s rB) : TraceMem s' ∧ TraceFar s' rB := by
  obtain ⟨hmem, hfar⟩ := h
  constructor
  · intro i t b hb
    rw [ht] at hb
    rcases trace_append_cases _ _ _ _ hb with ⟨hi, hold⟩ | ⟨hi, hq⟩
    · rw [hc]
      exact hmem i t b hold
    · simp at hq
  · intro i j t x y hij hx hy
    rw [ht] at hx hy
    rcases trace_append_cases _ _ _ _ hx with ⟨hi, holdx⟩ | ⟨hi, hq⟩
    · rcases trace_append_cases _ _ _ _ hy with ⟨hj, holdy⟩ | ⟨hj, hq⟩
      · exact hfar i j t x y hij holdx holdy
      · simp at hq
    · simp at hq

/-- Extending the trace with an accepted same-text anchor preserves the
invariant, provided the anchor is registered and far from every
previously registered anchor of its text. -/
theorem traceInv_append_some (s s' : LS) (a : AnchorQ) (t0 : String) (rB : ℚ)
    (hc : s'.compareText = s.compareText)
    (ht : s'.instanceTraces = s.instanceTraces ++ [(some t0, a)])
    (hmem : TraceMem s) (hfar : TraceFar s rB)
    (hreg : ∃ l, s.compareText t0 = some l ∧ a ∈ l)
    (hfara : ∀ (i : ℕ) (b : AnchorQ), s.instanceTraces[i]? = some (some t0, b) →
      distLt a b rB = false) :
    TraceMem s' ∧ TraceFar s' rB := by
  constructor
  · intro i t b hb
    rw [ht] at hb
    rcases trace_append_cases _ _ _ _ hb with ⟨hi, hold⟩ | ⟨hi, hq⟩
    · rw [hc]
      exact hmem i t b hold
    · rw [hc]
      obtain ⟨h1, h2⟩ := Prod.mk.injEq .. ▸ hq
      cases h1
      cases h2
      exact hreg
  · intro i j t x y hij hx hy
    rw [ht] at hx hy
    rcases trace_append_cases _ _ _ _ hx with ⟨hi, holdx⟩ | ⟨hi, hqx⟩
    · rcases trace_append_cases _ _ _ _ hy with ⟨hj, holdy⟩ | ⟨hj, hqy⟩
      · exact hfar i j t x y hij holdx holdy
      · obtain ⟨h1, h2⟩ := Prod.mk.injEq .. ▸ hqy
        cases h1
        cases h2
        rw [distLt_comm]
        exact hfara i x holdx
    · rcases trace_append_cases _ _ _ _ hy with ⟨hj, holdy⟩ | ⟨hj, hqy⟩
      · obtain ⟨h1, h2⟩ := Prod.mk.injEq .. ▸ hqx
        cases h1
        cases h2
        exact hfara j y holdy
      · omega

/-- Characterisation of `anchorIsTooClose`: it reports `true` exactly
when some previously recorded same-text anchor lies within the repeat
distance, and in that case it leaves the state untouched (the anchor is
dropped before any symbol instance is built). -/
theorem anchorIsTooClose_spec (s : LS) (text : String) (rd : ℚ) (a : AnchorQ) :
    ((anchorIsTooClose s text rd a).1 = true ↔
      ∃ l, s.compareText text = some l ∧ ∃ b ∈ l, distLt a b rd = true)
    ∧ ((anchorIsTooClose s text rd a).1 = true → (anchorIsTooClose s text rd a).2 = s) := by
  unfold anchorIsTooClose
  cases hc : s.compareText text
  · simp
  case some val =>
    dsimp only
    split
    case isTrue hany =>
      simp only [List.any_eq_true] at hany
      refine ⟨⟨fun _ => ⟨val, rfl, hany⟩, fun _ => rfl⟩, fun _ => rfl⟩
    case isFalse hany =>
      simp only [List.any_eq_true] at hany
      constructor
      · constructor
        · intro hcontra
          simp at hcontra
        · rintro ⟨l, hl, b, hb, hd⟩
          obtain rfl : val = l := by
            injection hl
          exact absurd ⟨b, hb, hd⟩ hany
      · intro hcontra
        simp at hcontra

/-- Acceptance case of `anchorIsTooClose`: the anchor is far from every
previously recorded same-text anchor and gets appended to its text's
record; no other text's record changes. -/
theorem anchorIsTooClose_accept (s : LS) (text : String) (rd : ℚ) (a : AnchorQ)
    (h : (anchorIsTooClose s text rd a).1 = false) :
    (∀ b ∈ (s.compareText text).getD [], distLt a b rd = false)
    ∧ (anchorIsTooClose s text rd a).2.compareText
        = fun t => if t = text then some ((s.compareText text).getD [] ++ [a])
                   else s.compareText t := by
  have hnot : ¬ ∃ l, s.compareText text = some l ∧ ∃ b ∈ l, distLt a b rd = true := by
    intro hex
    rw [← (anchorIsTooClose_spec s text rd a).1] at hex
    rw [h] at hex
    exact Bool.false_ne_true hex
  constructor
  · intro b hb
    cases hc : s.compareText text with
    | none =>
        rw [hc] at hb
        simp at hb
    | some l =>
        rw [hc] at hb
        simp only [Option.getD_some] at hb
        cases hdb : distLt a b rd
        · rfl
        · exact absurd ⟨l, hc, b, hb, hdb⟩ hnot
  · unfold anchorIsTooClose
    cases hc : s.compareText text
    · simp
    case some val =>
      have hany : ¬ (val.any fun other => distLt a other rd) = true := by
        rw [List.any_eq_true]
        intro hex
        exact hnot ⟨val, hc, hex⟩
      dsimp only
      rw [if_neg hany]
      simp

/-- `attemptAnchor` preserves the invariant when the feature has no
horizontal text. -/
theorem attemptAnchor_inv_none (ex : Externs) (bucket : BucketInput) (ctx : FeatureCtx)
    (line : List Pt) (a : AnchorQ) (s : LS) (rB : ℚ)
    (hh : ctx.shapedTextOrientations.horizontal = none)
    (h : TraceMem s ∧ TraceFar s rB) :
    TraceMem (attemptAnchor ex bucket ctx line a s)
    ∧ TraceFar (attemptAnchor ex bucket ctx line a s) rB := by
  unfold attemptAnchor addSymbolAtAnchor
  split
  · exact traceInv_congr s _ rB rfl rfl h
  · refine traceInv_append_none s _ a rB ?_ ?_ h
    · simp [addSymbol_stable]
    · simp [addSymbol_stable, hh]

/-- `attemptAnchor` preserves the invariant for an anchor whose text is
registered and far from every recorded same-text instance anchor. -/
theorem attemptAnchor_inv_some (ex : Externs) (bucket : BucketInput) (ctx : FeatureCtx)
    (line : List Pt) (a : AnchorQ) (s : LS) (rB : ℚ) (sh : ShapingQ)
    (hh : ctx.shapedTextOrientations.horizontal = some sh)
    (hmem : TraceMem s) (hfar : TraceFar s rB)
    (hreg : ∃ l, s.compareText sh.text = some l ∧ a ∈ l)
    (hfara : ∀ (i : ℕ) (b : AnchorQ), s.instanceTraces[i]? = some (some sh.text, b) →
        distLt a b rB = false) :
    TraceMem (attemptAnchor ex bucket ctx line a s)
    ∧ TraceFar (attemptAnchor ex bucket ctx line a s) rB := by
  unfold attemptAnchor addSymbolAtAnchor
  split
  · exact traceInv_congr s _ rB rfl rfl ⟨hmem, hfar⟩
  · refine traceInv_append_some s _ a sh.text rB ?_ ?_ hmem hfar hreg hfara
    · simp [addSymbol_stable]
    · simp [addSymbol_stable, hh]

/-- The per-anchor step of the line-placement branch preserves the
repeat-distance invariant. -/
theorem lineAnchorStep_inv (ex : Externs) (bucket : BucketInput) (ctx : FeatureCtx)
    (rB : ℚ) (line : List Pt) (s : LS) (a : AnchorQ)
    (h : TraceMem s ∧ TraceFar s rB) :
    TraceMem (lineAnchorStep ex bucket ctx rB line s a)
    ∧ TraceFar (lineAnchorStep ex bucket ctx rB line s a) rB := by
  unfold lineAnchorStep
  cases hh : ctx.shapedTextOrientations.horizontal with
  | none => exact attemptAnchor_inv_none ex bucket ctx line a s rB hh h
  | some sh =>
      dsimp only
      split
      case isTrue htrue =>
        rw [(anchorIsTooClose_spec s sh.text rB a).2 htrue]
        exact h
      case isFalse hfalse =>
        rw [Bool.not_eq_true] at hfalse
        obtain ⟨hfarold, hcmap⟩ := anchorIsTooClose_accept s sh.text rB a hfalse
        have hs1traces : (anchorIsTooClose s sh.text rB a).2.instanceTraces
            = s.instanceTraces := (anchorIsTooClose_stable s sh.text rB a).1
        have hmem1 : TraceMem (anchorIsTooClose s sh.text rB a).2 := by
          intro i t b hb
          rw [hs1traces] at hb
          obtain ⟨l, hl, hbl⟩ := h.1 i t b hb
          by_cases ht : t = sh.text
          · subst ht
            refine ⟨(s.compareText sh.text).getD [] ++ [a], ?_, ?_⟩
            · rw [hcmap]
              simp
            · rw [hl]
              exact List.mem_append_left _ hbl
          · refine ⟨l, ?_, hbl⟩
            rw [hcmap]
            simp only [ht, if_false]
            exact hl
        have hfar1 : TraceFar (anchorIsTooClose s sh.text rB a).2 rB := by
          intro i j t x y hij hx hy
          rw [hs1traces] at hx hy
          exact h.2 i j t x y hij hx hy
        have hreg1 : ∃ l, (anchorIsTooClose s sh.text rB a).2.compareText sh.text
            = some l ∧ a ∈ l := by
          refine ⟨(s.compareText sh.text).getD [] ++ [a], ?_, by simp⟩
          rw [hcmap]
          simp
        have hfara1 : ∀ (i : ℕ) (b : AnchorQ),
            (anchorIsTooClose s sh.text rB a).2.instanceTraces[i]? = some (some sh.text, b) →
            distLt a b rB = false := by
          intro i b hb
          rw [hs1traces] at hb
          obtain ⟨l, hl, hbl⟩ := h.1 i sh.text b hb
          apply hfarold
          rw [hl]
          simpa using hbl
        exact attemptAnchor_inv_some ex bucket ctx line a _ rB sh hh hmem1 hfar1 hreg1 hfara1

/-- `addFeature` never changes the tile pixel ratio. -/
theorem addFeature_tilePixelRatio (ex : Externs) (bucket : BucketInput) (f : FeatureQ)
    (sto : ShapedTextOrientations) (si : Option PositionedIconQ) (sizes : SizesQ) (s : LS) :
    (addFeature ex bucket f sto si sizes s).tilePixelRatio = s.tilePixelRatio := by
  have hA : ∀ ctx line a t, (attemptAnchor ex bucket ctx line a t).tilePixelRatio
      = t.tilePixelRatio :=
    fun ctx line a t => (attemptAnchor_effects ex bucket ctx line a t).2.2.2
  have hL : ∀ ctx rd line t a,
      (lineAnchorStep ex bucket ctx rd line t a).tilePixelRatio = t.tilePixelRatio := by
    intro ctx rd line t a
    unfold lineAnchorStep
    cases hh : ctx.shapedTextOrientations.horizontal
    · exact hA _ _ _ _
    · dsimp only
      split
      · exact (anchorIsTooClose_stable t _ rd a).2.1
      · rw [hA]
        exact (anchorIsTooClose_stable t _ rd a).2.1
  cases hp : bucket.layout.symbolPlacement
  case line =>
    simp only [addFeature, hp]
    refine Eq.trans (foldl_proj_const LS.tilePixelRatio _ ?_ _ _) ?_
    · intro t line
      exact foldl_proj_const LS.tilePixelRatio _ (hL _ _ line) _ t
    · rfl
  case lineCenter =>
    simp only [addFeature, hp]
    refine Eq.trans (foldl_proj_const LS.tilePixelRatio _ ?_ _ _) ?_
    · intro t line
      dsimp only
      split
      · split
        · exact hA _ _ _ _
        · rfl
      · rfl
    · rfl
  case point =>
    cases ht : f.type
    case point =>
      simp only [addFeature, hp, ht]
      refine Eq.trans (foldl_proj_const LS.tilePixelRatio _ ?_ _ _) ?_
      · intro t points
        exact foldl_proj_const LS.tilePixelRatio _ (fun t p => hA _ _ _ t) _ t
      · rfl
    case lineString =>
      simp only [addFeature, hp, ht]
      refine Eq.trans (foldl_proj_const LS.tilePixelRatio _ ?_ _ _) ?_
      · intro t line
        exact hA _ _ _ _
      · rfl
    case polygon =>
      simp only [addFeature, hp, ht]
      refine Eq.trans (foldl_proj_const LS.tilePixelRatio _ ?_ _ _) ?_
      · intro t polygon
        exact hA _ _ _ _
      · rfl

/-- For line placement, `addFeature` preserves the repeat-distance
invariant at `textRepeatDistance = tilePixelRatio * symbol-spacing / 2`. -/
theorem addFeature_line_inv (ex : Externs) (bucket : BucketInput) (f : FeatureQ)
    (sto : ShapedTextOrientations) (si : Option PositionedIconQ) (sizes : SizesQ)
    (rB : ℚ) (s : LS)
    (hline : bucket.layout.symbolPlacement = PlacementQ.line)
    (hr : rB = s.tilePixelRatio * bucket.layout.symbolSpacing / 2)
    (h : TraceMem s ∧ TraceFar s rB) :
    TraceMem (addFeature ex bucket f sto si sizes s)
    ∧ TraceFar (addFeature ex bucket f sto si sizes s) rB := by
  simp only [addFeature, hline]
  refine foldl_inv (fun t => TraceMem t ∧ TraceFar t rB) _ ?_ _ _ ?_
  · intro t line hP
    refine foldl_inv (fun t => TraceMem t ∧ TraceFar t rB) _ ?_ _ _ hP
    intro t a hP
    have hrw : ({ s with textMaxSizeTrace := s.textMaxSizeTrace
        ++ [resolveTextMaxSize sizes f] } : LS).tilePixelRatio
        * bucket.layout.symbolSpacing / 2 = rB := by
      rw [hr]
    rw [hrw]
    exact lineAnchorStep_inv ex bucket _ rB line t a hP
  · exact traceInv_congr s _ rB rfl rfl h

/-- `processFeature` is `addFeature` (or the identity) applied to a
state that differs from the input only in shaping/diagnostic fields. -/
theorem processFeature_shape (ex : Externs) (bucket : BucketInput) (sizes : SizesQ)
    (s : LS) (f : FeatureQ) :
    ∃ (s2 : LS) (si : Option PositionedIconQ),
      processFeature ex bucket sizes s f
        = (if (shapeFeature ex bucket f).1.horizontal.isSome || si.isSome
           then addFeature ex bucket f (shapeFeature ex bucket f).1 si sizes s2
           else s2)
      ∧ s2.compareText = s.compareText
      ∧ s2.instanceTraces = s.instanceTraces
      ∧ s2.tilePixelRatio = s.tilePixelRatio := by
  have hfields : ∀ (t : LS), (processFeatureIcon ex bucket f t).2.compareText = t.compareText
      ∧ (processFeatureIcon ex bucket f t).2.instanceTraces = t.instanceTraces
      ∧ (processFeatureIcon ex bucket f t).2.tilePixelRatio = t.tilePixelRatio := by
    intro t
    unfold processFeatureIcon
    cases hic : f.icon
    · simp
    case some iconName =>
      dsimp only
      cases him : bucket.imageMap iconName
      · simp
      case some image =>
        dsimp only
        cases hsd : t.sdfIcons <;>
          (repeat' split) <;> simp [pushWarning]
  refine ⟨(processFeatureIcon ex bucket f
      { s with shapingAttempts := s.shapingAttempts ++ [(shapeFeature ex bucket f).2] }).2,
    (processFeatureIcon ex bucket f
      { s with shapingAttempts := s.shapingAttempts ++ [(shapeFeature ex bucket f).2] }).1,
    rfl, ?_, ?_, ?_⟩
  · rw [(hfields _).1]
  · rw [(hfields _).2.1]
  · rw [(hfields _).2.2]

/-- `processFeature` never changes the tile pixel ratio. -/
theorem processFeature_tilePixelRatio (ex : Externs) (bucket : BucketInput)
    (sizes : SizesQ) (s : LS) (f : FeatureQ) :
    (processFeature ex bucket sizes s f).tilePixelRatio = s.tilePixelRatio := by
  obtain ⟨s2, si, heq, hc, ht, hp⟩ := processFeature_shape ex bucket sizes s f
  rw [heq]
  split
  · rw [addFeature_tilePixelRatio, hp]
  · exact hp

/-- For line placement, `processFeature` preserves the repeat-distance
invariant. -/
theorem processFeature_inv (ex : Externs) (bucket : BucketInput) (sizes : SizesQ)
    (rB : ℚ) (s : LS) (f : FeatureQ)
    (hline : bucket.layout.symbolPlacement = PlacementQ.line)
    (hr : rB = s.tilePixelRatio * bucket.layout.symbolSpacing / 2)
    (h : TraceMem s ∧ TraceFar s rB) :
    TraceMem (processFeature ex bucket sizes s f)
    ∧ TraceFar (processFeature ex bucket sizes s f) rB := by
  obtain ⟨s2, si, heq, hc, ht, hp⟩ := processFeature_shape ex bucket sizes s f
  rw [heq]
  split
  · refine addFeature_line_inv ex bucket f _ si sizes rB s2 hline ?_ ?_
    · rw [hp, ← hr]
    · exact traceInv_congr s s2 rB hc ht h
  · exact traceInv_congr s s2 rB hc ht h

/-- After a line-placement layout pass, the repeat-distance invariant
holds of the final state, at `textRepeatDistance` expressed through the
bucket inputs. -/
theorem performSymbolLayout_line_inv (ex : Externs) (bucket : BucketInput)
    (sc : Bool) (s0 : LS)
    (hline : bucket.layout.symbolPlacement = PlacementQ.line) :
    TraceMem (performSymbolLayout ex bucket sc s0)
    ∧ TraceFar (performSymbolLayout ex bucket sc s0)
        ((EXTENT / (512 * bucket.overscaling)) * bucket.layout.symbolSpacing / 2) := by
  unfold performSymbolLayout
  have hstep : ∀ (t : LS) (f : FeatureQ),
      ((TraceMem t ∧ TraceFar t ((EXTENT / (512 * bucket.overscaling))
          * bucket.layout.symbolSpacing / 2))
        ∧ t.tilePixelRatio = EXTENT / (512 * bucket.overscaling)) →
      ((TraceMem (processFeature ex bucket (mkSizes bucket) t f)
        ∧ TraceFar (processFeature ex bucket (mkSizes bucket) t f)
            ((EXTENT / (512 * bucket.overscaling)) * bucket.layout.symbolSpacing / 2))
        ∧ (processFeature ex bucket (mkSizes bucket) t f).tilePixelRatio
            = EXTENT / (512 * bucket.overscaling)) := by
    intro t f hP
    constructor
    · refine processFeature_inv ex bucket (mkSizes bucket) _ t f hline ?_ hP.1
      rw [hP.2]
    · rw [processFeature_tilePixelRatio, hP.2]
  have hinit : (TraceMem (initLayoutState bucket s0)
      ∧ TraceFar (initLayoutState bucket s0)
          ((EXTENT / (512 * bucket.overscaling)) * bucket.layout.symbolSpacing / 2))
      ∧ (initLayoutState bucket s0).tilePixelRatio
          = EXTENT / (512 * bucket.overscaling) := by
    refine ⟨⟨?_, ?_⟩, rfl⟩
    · intro i t a hb
      simp [initLayoutState] at hb
    · intro i j t a b hij ha hb
      simp [initLayoutState] at ha
  exact (foldl_inv _ _ hstep bucket.features _ hinit).1

/- ===== C3 ===== -/

/-- C3: under line placement, `anchorIsTooClose` reports a duplicate
exactly when a previously recorded same-text anchor lies within the
repeat distance (first-seen anchor wins; the later anchor is dropped
with the state untouched, before any symbol instance is built), and no
two symbol instances carrying the same horizontal text are ever created
at anchors closer than `symbolMinDistance / 2`. -/
theorem line_placement_repeat_distance (ex : Externs) (bucket : BucketInput)
    (sc : Bool) (s0 : LS)
    (hline : bucket.layout.symbolPlacement = PlacementQ.line) :
    (∀ (s : LS) (text : String) (rd : ℚ) (a : AnchorQ),
        ((anchorIsTooClose s text rd a).1 = true ↔
          ∃ l, s.compareText text = some l ∧ ∃ b ∈ l, distLt a b rd = true)
        ∧ ((anchorIsTooClose s text rd a).1 = true →
            (anchorIsTooClose s text rd a).2 = s))
    ∧ (∀ (i j : ℕ) (t : String) (a1 a2 : AnchorQ), i ≠ j →
        (performSymbolLayout ex bucket sc s0).instanceTraces[i]? = some (some t, a1) →
        (performSymbolLayout ex bucket sc s0).instanceTraces[j]? = some (some t, a2) →
        distLt a1 a2 ((EXTENT / (512 * bucket.overscaling))
          * bucket.layout.symbolSpacing / 2) = false) :=
  ⟨fun s text rd a => anchorIsTooClose_spec s text rd a,
   fun i j t a1 a2 hij h1 h2 =>
     (performSymbolLayout_line_inv ex bucket sc s0 hline).2 i j t a1 a2 hij h1 h2⟩

set_option maxHeartbeats 4000000 in
/-- Witness for C3: on the concrete line bucket `bucketC3` (two anchors 5000
apart, symbol-spacing 250, overscaling 1) both anchors survive placement and
the theorem's conclusion evaluates: the two traced anchors are farther apart
than the repeat distance. -/
theorem line_placement_repeat_distance_witness :
    bucketC3.layout.symbolPlacement = PlacementQ.line ∧
    distLt ⟨0, 0, 0, none⟩ ⟨5000, 0, 0, none⟩
      ((EXTENT / (512 * bucketC3.overscaling)) * bucketC3.layout.symbolSpacing / 2) = false := by
  have hq1 : ¬ (8192 : ℚ) ≤ 0 := by norm_num
  have hq2 : ¬ (0 : ℚ) < 0 := by norm_num
  have hq3 : ¬ (5000 : ℚ) < 0 := by norm_num
  have hq4 : ¬ (8192 : ℚ) ≤ 5000 := by norm_num
  have hof : MAX_PACKED_SIZE < SIZE_PACK_FACTOR * (300 : ℚ) := by
    norm_num [MAX_PACKED_SIZE, SIZE_PACK_FACTOR]
  have hdist : distLt ⟨5000, 0, 0, none⟩ ⟨0, 0, 0, none⟩ ((8192 : ℚ) / 512 * 250 / 2) = false := by
    rw [distLt]
    norm_num
  have htrace : (performSymbolLayout exC3 bucketC3 false ls0).instanceTraces
      = [(some "T", (⟨0, 0, 0, none⟩ : AnchorQ)), (some "T", ⟨5000, 0, 0, none⟩)] := by
    simp [performSymbolLayout, initLayoutState, processFeature, processFeatureIcon,
      shapeFeature, addFeature, lineAnchorStep, attemptAnchor, addSymbolAtAnchor,
      anchorIsTooClose, addSymbol, addTextVertices, mkCollisionFeature, recordAddSymbols,
      pushWarning, mkSizes, resolveTextMaxSize, exC3, exA, bucketC3, bucketA, layoutA,
      featC3, ls0, EXTENT, optGt, orElseShaping, hq1, hq2, hq3, hq4, hof, hdist]
  refine ⟨rfl, ?_⟩
  exact (line_placement_repeat_distance exC3 bucketC3 false ls0 rfl).2 0 1 "T"
    ⟨0, 0, 0, none⟩ ⟨5000, 0, 0, none⟩ (by omega)
    (by rw [htrace]; rfl) (by rw [htrace]; rfl)

/- ===== Determinism of performSymbolLayout (core-equality simulation) ===== -/

theorem core_eq_iff (s t : LS) :
    s.core = t.core ↔
      s.symbolInstances = t.symbolInstances ∧ s.collisionBoxLen = t.collisionBoxLen ∧
      s.lineVertexLen = t.lineVertexLen ∧ s.placedTextLen = t.placedTextLen ∧
      s.placedIconLen = t.placedIconLen ∧ s.glyphOffsetLen = t.glyphOffsetLen ∧
      s.compareText = t.compareText ∧ s.tilePixelRatio = t.tilePixelRatio ∧
      s.instanceTraces = t.instanceTraces := by
  rw [LS.core, LS.core, LSCore.mk.injEq]

theorem pushWarning_core (s : LS) (W : WarningQ) : (pushWarning s W).core = s.core := rfl

theorem recordAddSymbols_core (ex : Externs) (s t : LS) (c : AddSymbolsCall)
    (h : s.core = t.core) :
    (recordAddSymbols ex s c).core = (recordAddSymbols ex t c).core := by
  rw [core_eq_iff] at h ⊢
  obtain ⟨h1, h2, h3, h4, h5, h6, h7, h8, h9⟩ := h
  simp [recordAddSymbols, h1, h2, h3, h4, h5, h6, h7, h8, h9]

theorem mkCollisionFeature_core (ex : Externs) (call : CollisionCall) (s t : LS)
    (h : s.core = t.core) :
    (mkCollisionFeature ex call s).1 = (mkCollisionFeature ex call t).1 ∧
    (mkCollisionFeature ex call s).2.core = (mkCollisionFeature ex call t).2.core := by
  rw [core_eq_iff] at h
  obtain ⟨h1, h2, h3, h4, h5, h6, h7, h8, h9⟩ := h
  refine ⟨?_, ?_⟩
  · rw [mkCollisionFeature, mkCollisionFeature]
    simp [h2]
  · rw [core_eq_iff]
    simp [mkCollisionFeature, h1, h2, h3, h4, h5, h6, h7, h8, h9]

theorem anchorIsTooClose_core (s t : LS) (text : String) (rd : ℚ) (a : AnchorQ)
    (h : s.core = t.core) :
    (anchorIsTooClose s text rd a).1 = (anchorIsTooClose t text rd a).1 ∧
    (anchorIsTooClose s text rd a).2.core = (anchorIsTooClose t text rd a).2.core := by
  have h7 : s.compareText = t.compareText := by
    rw [core_eq_iff] at h
    exact h.2.2.2.2.2.2.1
  rw [anchorIsTooClose, anchorIsTooClose, h7]
  cases hc : t.compareText text with
  | none =>
      refine ⟨rfl, ?_⟩
      rw [core_eq_iff] at h ⊢
      simp_all
  | some l =>
      dsimp only
      split
      · exact ⟨rfl, h⟩
      · refine ⟨rfl, ?_⟩
        rw [core_eq_iff] at h ⊢
        simp_all


theorem addTextVertices_core (ex : Externs) (bucket : BucketInput) (anchor : AnchorQ)
    (sh : ShapingQ) (tal : Bool) (f : FeatureQ) (toff : ℚ × ℚ) (la : ℕ × ℕ)
    (wm : WritingModeE) (idx : List ℕ) (sizes : SizesQ) (s t : LS)
    (h : s.core = t.core) :
    (addTextVertices ex bucket anchor sh tal f toff la wm idx sizes s).1
      = (addTextVertices ex bucket anchor sh tal f toff la wm idx sizes t).1 ∧
    (addTextVertices ex bucket anchor sh tal f toff la wm idx sizes s).2.1
      = (addTextVertices ex bucket anchor sh tal f toff la wm idx sizes t).2.1 ∧
    (addTextVertices ex bucket anchor sh tal f toff la wm idx sizes s).2.2.core
      = (addTextVertices ex bucket anchor sh tal f toff la wm idx sizes t).2.2.core := by
  rw [core_eq_iff] at h
  obtain ⟨h1, h2, h3, h4, h5, h6, h7, h8, h9⟩ := h
  unfold addTextVertices
  cases htf : bucket.textSizeData.functionType <;>
    simp [recordAddSymbols, pushWarning, core_eq_iff, h1, h2, h3, h4, h5, h6, h7, h8, h9,
      apply_ite LS.symbolInstances, apply_ite LS.collisionBoxLen, apply_ite LS.lineVertexLen,
      apply_ite LS.placedTextLen, apply_ite LS.placedIconLen, apply_ite LS.glyphOffsetLen,
      apply_ite LS.compareText, apply_ite LS.tilePixelRatio, apply_ite LS.instanceTraces]


set_option maxHeartbeats 8000000 in
theorem addSymbol_core (ex : Externs) (bucket : BucketInput) (anchor : AnchorQ)
    (line : List Pt) (sto : ShapedTextOrientations) (si : Option PositionedIconQ)
    (fi sli bi : ℕ) (tbs : Option ℚ) (tp : ℚ) (tal : Bool) (toff : ℚ × ℚ)
    (ibs : Option ℚ) (ip : ℚ) (ial : Bool) (ioff : ℚ × ℚ)
    (f : FeatureQ) (sizes : SizesQ) (s t : LS) (h : s.core = t.core) :
    (addSymbol ex bucket anchor line sto si fi sli bi tbs tp tal toff ibs ip ial ioff
        f sizes s).1
      = (addSymbol ex bucket anchor line sto si fi sli bi tbs tp tal toff ibs ip ial ioff
        f sizes t).1 ∧
    (addSymbol ex bucket anchor line sto si fi sli bi tbs tp tal toff ibs ip ial ioff
        f sizes s).2.core
      = (addSymbol ex bucket anchor line sto si fi sli bi tbs tp tal toff ibs ip ial ioff
        f sizes t).2.core := by
  rw [core_eq_iff] at h
  obtain ⟨h1, h2, h3, h4, h5, h6, h7, h8, h9⟩ := h
  rw [core_eq_iff]
  unfold addSymbol
  cases hh : sto.horizontal <;> cases hv : sto.vertical <;> cases hi : si <;>
    cases hif : bucket.iconSizeData.functionType <;>
    cases htf : bucket.textSizeData.functionType <;>
    simp [mkCollisionFeature, recordAddSymbols, pushWarning, addTextVertices,
      hh, hv, hi, hif, htf, h1, h2, h3, h4, h5, h6, h7, h8, h9,
      apply_ite LS.symbolInstances, apply_ite LS.collisionBoxLen, apply_ite LS.lineVertexLen,
      apply_ite LS.placedTextLen, apply_ite LS.placedIconLen, apply_ite LS.glyphOffsetLen,
      apply_ite LS.compareText, apply_ite LS.tilePixelRatio, apply_ite LS.instanceTraces]


theorem addSymbolAtAnchor_core (ex : Externs) (bucket : BucketInput) (ctx : FeatureCtx)
    (line : List Pt) (anchor : AnchorQ) (s t : LS) (h : s.core = t.core) :
    (addSymbolAtAnchor ex bucket ctx line anchor s).core
      = (addSymbolAtAnchor ex bucket ctx line anchor t).core := by
  rw [addSymbolAtAnchor, addSymbolAtAnchor]
  split
  · exact h
  · obtain ⟨e1, e2⟩ := addSymbol_core ex bucket anchor line ctx.shapedTextOrientations
      ctx.shapedIcon ctx.feature.index ctx.feature.sourceLayerIndex bucket.bucketIndex
      ctx.textBoxScale ctx.textPadding ctx.textAlongLine ctx.textOffset
      ctx.iconBoxScale ctx.iconPadding ctx.iconAlongLine ctx.iconOffset
      ctx.feature ctx.sizes s t h
    rw [core_eq_iff] at e2 ⊢
    simp_all

theorem attemptAnchor_core (ex : Externs) (bucket : BucketInput) (ctx : FeatureCtx)
    (line : List Pt) (anchor : AnchorQ) (s t : LS) (h : s.core = t.core) :
    (attemptAnchor ex bucket ctx line anchor s).core
      = (attemptAnchor ex bucket ctx line anchor t).core := by
  rw [attemptAnchor, attemptAnchor]
  apply addSymbolAtAnchor_core
  rw [core_eq_iff] at h ⊢
  simp_all

theorem lineAnchorStep_core (ex : Externs) (bucket : BucketInput) (ctx : FeatureCtx)
    (trd : ℚ) (line : List Pt) (s t : LS) (anchor : AnchorQ) (h : s.core = t.core) :
    (lineAnchorStep ex bucket ctx trd line s anchor).core
      = (lineAnchorStep ex bucket ctx trd line t anchor).core := by
  rw [lineAnchorStep, lineAnchorStep]
  cases hsh : ctx.shapedTextOrientations.horizontal with
  | none => exact attemptAnchor_core ex bucket ctx line anchor s t h
  | some sh =>
      obtain ⟨e1, e2⟩ := anchorIsTooClose_core s t sh.text trd anchor h
      dsimp only
      rw [e1]
      split
      · exact e2
      · exact attemptAnchor_core ex bucket ctx line anchor _ _ e2

theorem processFeatureIcon_core (ex : Externs) (bucket : BucketInput) (f : FeatureQ)
    (s t : LS) (h : s.core = t.core) :
    (processFeatureIcon ex bucket f s).1 = (processFeatureIcon ex bucket f t).1 ∧
    (processFeatureIcon ex bucket f s).2.core = (processFeatureIcon ex bucket f t).2.core := by
  rw [processFeatureIcon, processFeatureIcon]
  cases f.icon with
  | none => exact ⟨rfl, h⟩
  | some iconName =>
      dsimp only
      cases bucket.imageMap iconName with
      | none => exact ⟨rfl, h⟩
      | some image =>
          dsimp only
          refine ⟨rfl, ?_⟩
          rw [core_eq_iff] at h ⊢
          (repeat' split) <;> simp_all [pushWarning]

/-- A fold over a layout-irrelevant input list preserves core equality when
its step does. -/
theorem foldl_core {α : Type _} (g : LS → α → LS)
    (hg : ∀ s t x, s.core = t.core → (g s x).core = (g t x).core)
    (l : List α) (s t : LS) (h : s.core = t.core) :
    (l.foldl g s).core = (l.foldl g t).core := by
  induction l generalizing s t with
  | nil => exact h
  | cons x xs ih => exact ih _ _ (hg _ _ _ h)


set_option maxHeartbeats 2000000 in
theorem addFeature_core (ex : Externs) (bucket : BucketInput) (f : FeatureQ)
    (sto : ShapedTextOrientations) (si : Option PositionedIconQ) (sizes : SizesQ)
    (s t : LS) (h : s.core = t.core) :
    (addFeature ex bucket f sto si sizes s).core
      = (addFeature ex bucket f sto si sizes t).core := by
  have h8 : s.tilePixelRatio = t.tilePixelRatio := by
    rw [core_eq_iff] at h
    exact h.2.2.2.2.2.2.2.1
  have hupd : ({ s with
        tilePixelRatio := t.tilePixelRatio,
        textMaxSizeTrace := s.textMaxSizeTrace ++ [resolveTextMaxSize sizes f] } : LS).core
      = ({ t with
        textMaxSizeTrace := t.textMaxSizeTrace ++ [resolveTextMaxSize sizes f] } : LS).core := by
    rw [core_eq_iff] at h ⊢
    simp_all
  rw [addFeature, addFeature]
  dsimp only
  rw [h8]
  cases hp : bucket.layout.symbolPlacement <;> dsimp only
  · -- point
    cases hft : f.type <;> dsimp only
    · -- point geometry: nested fold over points
      refine foldl_core _ ?_ _ _ _ hupd
      intro a b x hx
      refine foldl_core _ ?_ _ _ _ hx
      intro a2 b2 y hy
      exact attemptAnchor_core _ _ _ _ _ _ _ hy
    · -- lineString geometry
      refine foldl_core _ ?_ _ _ _ hupd
      intro a b x hx
      exact attemptAnchor_core _ _ _ _ _ _ _ hx
    · -- polygon geometry
      refine foldl_core _ ?_ _ _ _ hupd
      intro a b x hx
      exact attemptAnchor_core _ _ _ _ _ _ _ hx
  · -- line
    refine foldl_core _ ?_ _ _ _ hupd
    intro a b x hx
    refine foldl_core _ ?_ _ _ _ hx
    intro a2 b2 y hy
    exact lineAnchorStep_core _ _ _ _ _ _ _ _ hy
  · -- lineCenter
    refine foldl_core _ ?_ _ _ _ hupd
    intro a b x hx
    dsimp only
    split
    · cases ex.getCenterAnchor x (bucket.layout.textMaxAngle / 180)
        (orElseShaping sto.vertical sto.horizontal) si 24
        (Option.map (fun v => t.tilePixelRatio * v / 24) (resolveTextMaxSize sizes f)) with
      | none => exact hx
      | some anc => exact attemptAnchor_core _ _ _ _ _ _ _ hx
    · exact hx


theorem processFeature_core (ex : Externs) (bucket : BucketInput) (sizes : SizesQ)
    (s t : LS) (f : FeatureQ) (h : s.core = t.core) :
    (processFeature ex bucket sizes s f).core = (processFeature ex bucket sizes t f).core := by
  rw [processFeature, processFeature]
  have hupd : ({ s with
        shapingAttempts := s.shapingAttempts ++ [(shapeFeature ex bucket f).2] } : LS).core
      = ({ t with
        shapingAttempts := t.shapingAttempts ++ [(shapeFeature ex bucket f).2] } : LS).core := by
    rw [core_eq_iff] at h ⊢
    simp_all
  obtain ⟨e1, e2⟩ := processFeatureIcon_core ex bucket f _ _ hupd
  rw [e1]
  split
  · exact addFeature_core ex bucket f _ _ sizes _ _ e2
  · exact e2

theorem initLayoutState_core (bucket : BucketInput) (s1 s2 : LS)
    (hcb : s1.collisionBoxLen = s2.collisionBoxLen) :
    (initLayoutState bucket s1).core = (initLayoutState bucket s2).core := by
  rw [core_eq_iff]
  simp [initLayoutState, hcb]

theorem performSymbolLayout_core (ex : Externs) (bucket : BucketInput) (sc : Bool)
    (s1 s2 : LS) (hcb : s1.collisionBoxLen = s2.collisionBoxLen) :
    (performSymbolLayout ex bucket sc s1).core = (performSymbolLayout ex bucket sc s2).core := by
  rw [performSymbolLayout, performSymbolLayout]
  exact foldl_core _ (fun a b x hx => processFeature_core ex bucket (mkSizes bucket) a b x hx)
    _ _ _ (initLayoutState_core bucket s1 s2 hcb)


/-- C8: `performSymbolLayout` is deterministic: with the same externals, the
same bucket snapshot and the same incoming collision-box array length, two
runs produce identical symbol-instance lists (in the same order, with
identical collision-box and placed-symbol index ranges inside each
instance), identical final collision-box and placed-symbol array lengths,
and identical instance traces, regardless of any stale warning/SDF
diagnostics or leftover per-run state from an earlier run. -/
theorem performSymbolLayout_deterministic (ex : Externs) (bucket : BucketInput)
    (sc : Bool) (s1 s2 : LS) (hcb : s1.collisionBoxLen = s2.collisionBoxLen) :
    (performSymbolLayout ex bucket sc s1).symbolInstances
      = (performSymbolLayout ex bucket sc s2).symbolInstances ∧
    (performSymbolLayout ex bucket sc s1).collisionBoxLen
      = (performSymbolLayout ex bucket sc s2).collisionBoxLen ∧
    (performSymbolLayout ex bucket sc s1).placedTextLen
      = (performSymbolLayout ex bucket sc s2).placedTextLen ∧
    (performSymbolLayout ex bucket sc s1).placedIconLen
      = (performSymbolLayout ex bucket sc s2).placedIconLen ∧
    (performSymbolLayout ex bucket sc s1).instanceTraces
      = (performSymbolLayout ex bucket sc s2).instanceTraces := by
  have hc := performSymbolLayout_core ex bucket sc s1 s2 hcb
  rw [core_eq_iff] at hc
  exact ⟨hc.1, hc.2.1, hc.2.2.2.1, hc.2.2.2.2.1, hc.2.2.2.2.2.2.2.2⟩

/-- Witness for C8: the clean state `ls0` and the dirtied state `ls1`
(stale warnings, SDF flag and leftover per-run fields, same collision-box
length) yield the same symbol instances and traces on the concrete
bucket `bucketA`. -/
theorem performSymbolLayout_deterministic_witness :
    ls0.collisionBoxLen = ls1.collisionBoxLen ∧
    (performSymbolLayout exA bucketA false ls0).symbolInstances
      = (performSymbolLayout exA bucketA false ls1).symbolInstances ∧
    (performSymbolLayout exA bucketA false ls0).instanceTraces
      = (performSymbolLayout exA bucketA false ls1).instanceTraces :=
  ⟨rfl, (performSymbolLayout_deterministic exA bucketA false ls0 ls1 rfl).1,
    (performSymbolLayout_deterministic exA bucketA false ls0 ls1 rfl).2.2.2.2⟩
